import Mathlib

/-!
Verification of the CloudHackLeadApp agent coordination layer.

This file gives a shallow embedding, in Lean, of the coordination code of the
CloudHackLeadApp repository: the task-queue orchestrator
(`server/agents/orchestrator.js`), the stage state machine and response
classifier (`server/agents/responseAgent.js`), the follow-up and outreach
agents, and the inbound-reply webhook (`server/routes/campaigns.js`), together
with theorems about their behaviour.

Modelling conventions:
* SQLite tables become Lean lists of records held in a `Db` structure; rows
  appear in insertion (rowid) order.  `AUTOINCREMENT` ids are modelled with
  explicit counters.
* SQL datetimes become abstract `Nat` instants (a day is one unit, matching
  the `setDate(getDate()+n)` arithmetic of the source); `CURRENT_TIMESTAMP`
  becomes an explicit `now` parameter.
* JavaScript exceptions become `Except String`; a thrown collaborator error
  propagates exactly where the source lets it escape.
* External collaborators (LLM text generation, the Resend email client) are
  modelled by a `Collab` record of oracle results; the literal prompt text fed
  to the LLM is a collaborator input and is not modelled.
* JavaScript truthiness on nullable strings (`!prospect.email`) treats both
  SQL NULL and the empty string as false; the helper `isBlank` mirrors this.
-/

namespace CloudHack

/-! ## JSON values

`JSON.stringify` / `JSON.parse` of the JavaScript runtime, restricted to the
values the application actually serialises: `null`, booleans, integer-valued
numbers, strings, arrays and objects.  Object fields are kept as an ordered
association list; a JavaScript object always has distinct keys, which the
well-formedness predicate `wfJson` records. -/

inductive Json where
  | null : Json
  | bool (b : Bool) : Json
  | num (n : Int) : Json
  | str (s : String) : Json
  | arr (elems : List Json) : Json
  | obj (fields : List (String × Json)) : Json
deriving Repr

/-- The decimal digit characters, as emitted by `JSON.stringify`. -/
def digitChar : Nat → Char
  | 0 => '0' | 1 => '1' | 2 => '2' | 3 => '3' | 4 => '4'
  | 5 => '5' | 6 => '6' | 7 => '7' | 8 => '8' | _ => '9'

/-- Lowercase hexadecimal digits, as emitted in `\u00xx` escapes. -/
def hexDigit : Nat → Char
  | 0 => '0' | 1 => '1' | 2 => '2' | 3 => '3' | 4 => '4'
  | 5 => '5' | 6 => '6' | 7 => '7' | 8 => '8' | 9 => '9'
  | 10 => 'a' | 11 => 'b' | 12 => 'c' | 13 => 'd' | 14 => 'e' | _ => 'f'

/-- Base-10 digits of `n`, least significant first, with explicit fuel so the
definition is structurally recursive (kernel-computable).  With `fuel ≥ n`
this agrees with `Nat.digits 10 n`. -/
def natDigitsRev (fuel n : Nat) : List Nat :=
  match fuel with
  | 0 => []
  | f + 1 => if n = 0 then [] else n % 10 :: natDigitsRev f (n / 10)

/-- Decimal numeral of a natural number (most significant digit first). -/
def natChars (n : Nat) : List Char :=
  if n = 0 then ['0'] else ((natDigitsRev n n).map digitChar).reverse

/-- Decimal numeral of an integer, as `JSON.stringify` prints it. -/
def intChars (n : Int) : List Char :=
  if n < 0 then '-' :: natChars n.natAbs else natChars n.toNat

/-- The escape sequence `JSON.stringify` emits for one string character:
quote and backslash are escaped, the named control escapes are used for
`\b \t \n \f \r`, any other control character becomes `\u00xx`, and every
other character is passed through verbatim. -/
def escapeChar (c : Char) : List Char :=
  if c = '"' then ['\\', '"']
  else if c = '\\' then ['\\', '\\']
  else if c = '\n' then ['\\', 'n']
  else if c = '\r' then ['\\', 'r']
  else if c = '\t' then ['\\', 't']
  else if c.toNat = 8 then ['\\', 'b']
  else if c.toNat = 12 then ['\\', 'f']
  else if c.toNat < 32 then
    ['\\', 'u', '0', '0', hexDigit (c.toNat / 16), hexDigit (c.toNat % 16)]
  else [c]

/-- Escape a whole string body. -/
def escapeList : List Char → List Char
  | [] => []
  | c :: cs => escapeChar c ++ escapeList cs

/-- The printed form of an object key: `"key":`. -/
def printKey (k : String) : List Char :=
  '"' :: (escapeList k.data ++ ['"', ':'])

mutual

/-- Character stream of `JSON.stringify` (no indentation argument, so no
whitespace is emitted). -/
def printVal : Json → List Char
  | .null => ['n', 'u', 'l', 'l']
  | .bool b => if b then ['t', 'r', 'u', 'e'] else ['f', 'a', 'l', 's', 'e']
  | .num n => intChars n
  | .str s => '"' :: (escapeList s.data ++ ['"'])
  | .arr xs => '[' :: (printElems xs ++ [']'])
  | .obj fs => '{' :: (printFields fs ++ ['}'])

/-- Comma-separated array elements. -/
def printElems : List Json → List Char
  | [] => []
  | [x] => printVal x
  | x :: y :: ys => printVal x ++ ',' :: printElems (y :: ys)

/-- Comma-separated object members. -/
def printFields : List (String × Json) → List Char
  | [] => []
  | [(k, v)] => printKey k ++ printVal v
  | (k, v) :: g :: gs => (printKey k ++ printVal v) ++ ',' :: printFields (g :: gs)

end

/-- `JSON.stringify`. -/
def Json.stringify (j : Json) : String := ⟨printVal j⟩

mutual

/-- Object keys are distinct, recursively (a JavaScript object cannot have two
equal keys, so every value produced by `JSON.stringify`'s argument satisfies
this). -/
def wfJson : Json → Bool
  | .null => true
  | .bool _ => true
  | .num _ => true
  | .str _ => true
  | .arr xs => wfElems xs
  | .obj fs => decide ((fs.map Prod.fst).Nodup) && wfFields fs

def wfElems : List Json → Bool
  | [] => true
  | x :: xs => wfJson x && wfElems xs

def wfFields : List (String × Json) → Bool
  | [] => true
  | f :: fs => wfJson f.2 && wfFields fs

end

/-! ### A JSON parser modelling `JSON.parse`

The parser is executable and total (array/object nesting is bounded by an
explicit fuel argument; `Json.parse` supplies ample fuel).  It covers the
grammar `JSON.stringify` emits — in particular no inter-token whitespace and
integer numerals — and it accepts hexadecimal string escapes in either case.
Object member lists are returned in source order; on texts produced from a
well-formed (distinct-key) value this coincides with the object
`JSON.parse` builds. -/

/-- Numeric value of a decimal digit character. -/
def digitVal (c : Char) : Nat := c.toNat - 48

/-- Numeric value of a hexadecimal digit character, upper or lower case. -/
def hexVal (c : Char) : Option Nat :=
  if 48 ≤ c.toNat ∧ c.toNat ≤ 57 then some (c.toNat - 48)
  else if 97 ≤ c.toNat ∧ c.toNat ≤ 102 then some (c.toNat - 87)
  else if 65 ≤ c.toNat ∧ c.toNat ≤ 70 then some (c.toNat - 55)
  else none

/-- The characters named by single-letter escape sequences. -/
def unescapeChar (c : Char) : Option Char :=
  if c = '"' then some '"'
  else if c = '\\' then some '\\'
  else if c = '/' then some '/'
  else if c = 'b' then some (Char.ofNat 8)
  else if c = 'f' then some (Char.ofNat 12)
  else if c = 'n' then some '\n'
  else if c = 'r' then some '\r'
  else if c = 't' then some '\t'
  else none

/-- Parse the body of a string literal after the opening quote, returning the
decoded characters and the input after the closing quote. -/
def parseStringBody : List Char → Option (List Char × List Char)
  | [] => none
  | c :: rest =>
    if c = '"' then some ([], rest)
    else if c = '\\' then
      match rest with
      | [] => none
      | e :: rest2 =>
        if e = 'u' then
          match rest2 with
          | h1 :: h2 :: h3 :: h4 :: rest3 =>
            match hexVal h1, hexVal h2, hexVal h3, hexVal h4 with
            | some a, some b, some c3, some d =>
              (parseStringBody rest3).map fun p =>
                (Char.ofNat (((a * 16 + b) * 16 + c3) * 16 + d) :: p.1, p.2)
            | _, _, _, _ => none
          | _ => none
        else
          match unescapeChar e with
          | some d => (parseStringBody rest2).map fun p => (d :: p.1, p.2)
          | none => none
    else (parseStringBody rest).map fun p => (c :: p.1, p.2)

/-- Parse a nonempty run of decimal digits. -/
def parseNat (cs : List Char) : Option (Nat × List Char) :=
  let ds := cs.takeWhile Char.isDigit
  if ds.isEmpty then none
  else some (ds.foldl (fun a c => a * 10 + digitVal c) 0, cs.dropWhile Char.isDigit)

/-- Parse an (optionally negated) integer numeral. -/
def parseNumber (cs : List Char) : Option (Json × List Char) :=
  match cs with
  | [] => none
  | c :: rest =>
    if c = '-' then (parseNat rest).map fun p => (Json.num (-(p.1 : Int)), p.2)
    else (parseNat (c :: rest)).map fun p => (Json.num ((p.1 : Nat) : Int), p.2)

mutual

/-- Parse one JSON value from the head of the input. -/
def parseVal : Nat → List Char → Option (Json × List Char)
  | 0, _ => none
  | _ + 1, [] => none
  | fuel + 1, c :: rest =>
    if c = 'n' then
      match rest with
      | 'u' :: 'l' :: 'l' :: r => some (.null, r)
      | _ => none
    else if c = 't' then
      match rest with
      | 'r' :: 'u' :: 'e' :: r => some (.bool true, r)
      | _ => none
    else if c = 'f' then
      match rest with
      | 'a' :: 'l' :: 's' :: 'e' :: r => some (.bool false, r)
      | _ => none
    else if c = '"' then
      (parseStringBody rest).map fun p => (Json.str ⟨p.1⟩, p.2)
    else if c = '[' then
      match rest with
      | [] => none
      | c2 :: r2 =>
        if c2 = ']' then some (.arr [], r2) else parseElems fuel (c2 :: r2)
    else if c = '{' then
      match rest with
      | [] => none
      | c2 :: r2 =>
        if c2 = '}' then some (.obj [], r2) else parseFields fuel (c2 :: r2)
    else parseNumber (c :: rest)

/-- Parse the elements of a nonempty array, up to and including `]`. -/
def parseElems : Nat → List Char → Option (Json × List Char)
  | 0, _ => none
  | fuel + 1, cs =>
    match parseVal fuel cs with
    | none => none
    | some (v, rest) =>
      match rest with
      | [] => none
      | c :: r =>
        if c = ',' then
          match parseElems fuel r with
          | some (Json.arr vs, r2) => some (.arr (v :: vs), r2)
          | _ => none
        else if c = ']' then some (.arr [v], r)
        else none

/-- Parse the members of a nonempty object, up to and including the closing
brace. -/
def parseFields : Nat → List Char → Option (Json × List Char)
  | 0, _ => none
  | fuel + 1, cs =>
    match cs with
    | [] => none
    | c :: rest =>
      if c = '"' then
        match parseStringBody rest with
        | none => none
        | some (k, rest2) =>
          match rest2 with
          | [] => none
          | c2 :: rest3 =>
            if c2 = ':' then
              match parseVal fuel rest3 with
              | none => none
              | some (v, rest4) =>
                match rest4 with
                | [] => none
                | c3 :: rest5 =>
                  if c3 = ',' then
                    match parseFields fuel rest5 with
                    | some (Json.obj fs, rest6) => some (.obj ((⟨k⟩, v) :: fs), rest6)
                    | _ => none
                  else if c3 = '}' then some (.obj [(⟨k⟩, v)], rest5)
                  else none
            else none
      else none

end

/-- `JSON.parse`: parse a whole string as one JSON value (`none` models the
`SyntaxError` the runtime throws on malformed input). -/
def Json.parse (s : String) : Option Json :=
  match parseVal (s.data.length + 1) s.data with
  | some (j, []) => some j
  | _ => none

/-- The input does not continue with a digit (numerals are delimiter
terminated); used to state the parser correctness lemmas. -/
def numDelim : List Char → Bool
  | [] => true
  | c :: _ => !c.isDigit

mutual

/-- Fuel needed by `parseVal` to consume a printed value. -/
def jsize : Json → Nat
  | .null => 1
  | .bool _ => 1
  | .num _ => 1
  | .str _ => 1
  | .arr xs => 1 + esize xs
  | .obj fs => 1 + fsize fs

/-- Fuel needed by `parseElems` for a printed element list. -/
def esize : List Json → Nat
  | [] => 0
  | x :: xs => 1 + jsize x + esize xs

/-- Fuel needed by `parseFields` for a printed member list. -/
def fsize : List (String × Json) → Nat
  | [] => 0
  | f :: fs => 1 + jsize f.2 + fsize fs

end

/-! ## Data model

The rows of the SQLite tables created in `server/db/init.js`, restricted to
the columns the coordination layer reads or writes. -/

/-- A row of `prospects`.  The `rating` and `review_count` columns are kept
as their rendered decimal strings: they are only ever interpolated into
template text, never computed with. -/
structure Prospect where
  id : Nat
  business_name : String
  email : Option String
  stage : String
  automation_enabled : Bool
  website_url : Option String
  city : Option String
  state : Option String
  category : Option String
  rating : Option String
  review_count : Option String
deriving Repr, DecidableEq

/-- A row of `agent_tasks`. -/
structure Task where
  id : Nat
  prospect_id : Nat
  agent_type : String
  status : String
  scheduled_for : Option Nat
  payload : Option String
  result : Option String
  error : Option String
  attempts : Nat
  created_at : Nat
  completed_at : Option Nat
deriving Repr, DecidableEq

/-- A row of `campaigns`. -/
structure Campaign where
  id : Nat
  prospect_id : Nat
  template_id : Option Nat
  subject : String
  body : String
  status : String
  sent_at : Option Nat
deriving Repr, DecidableEq

/-- A row of `follow_up_sequences` (`prospect_id` is UNIQUE). -/
structure FollowUpSequence where
  prospect_id : Nat
  sequence_step : Nat
  max_steps : Nat
  days_between : Nat
  is_paused : Bool
  last_sent_at : Option Nat
  next_send_at : Option Nat
deriving Repr, DecidableEq

/-- A row of `activities` (append-only log). -/
structure Activity where
  prospect_id : Nat
  type : String
  description : String
deriving Repr, DecidableEq

/-- A row of `notifications`.  The `priority` option the agents pass to
`createNotification` is dropped by the INSERT statement (the table has no
such column), so it does not appear here. -/
structure Notification where
  type : String
  title : String
  message : String
  prospect_id : Option Nat
  action_url : Option String
deriving Repr, DecidableEq

/-- A row of `email_events`, restricted to the columns the inbound webhook
writes. -/
structure EmailEvent where
  prospect_id : Nat
  event_type : String
  email_address : String
  email_content : String
deriving Repr, DecidableEq

/-- A row of `templates`. -/
structure Template where
  id : Nat
  name : String
  type : String
  subject : Option String
  body : String
deriving Repr, DecidableEq

/-- The persistent store.  Lists hold rows in insertion (rowid) order; the
counters model `AUTOINCREMENT` for the two tables whose fresh ids the code
reads back (`lastInsertRowid`). -/
structure Db where
  prospects : List Prospect
  tasks : List Task
  campaigns : List Campaign
  sequences : List FollowUpSequence
  activities : List Activity
  notifications : List Notification
  emailEvents : List EmailEvent
  templates : List Template
  config : List (String × String)
  taskCounter : Nat
  campaignCounter : Nat
deriving Repr, DecidableEq

/-! ### Row lookup and update helpers (single SQL statements) -/

/-- `SELECT * FROM prospects WHERE id = ?`. -/
def findProspect (db : Db) (id : Nat) : Option Prospect :=
  db.prospects.find? fun p => p.id == id

/-- `SELECT * FROM follow_up_sequences WHERE prospect_id = ?`. -/
def findSequence (db : Db) (pid : Nat) : Option FollowUpSequence :=
  db.sequences.find? fun s => s.prospect_id == pid

/-- `SELECT * FROM templates WHERE id = ?`. -/
def findTemplate (db : Db) (id : Nat) : Option Template :=
  db.templates.find? fun t => t.id == id

/-- `SELECT * FROM agent_tasks WHERE id = ?` (used to observe results). -/
def findTask (db : Db) (id : Nat) : Option Task :=
  db.tasks.find? fun t => t.id == id

/-- `SELECT * FROM campaigns WHERE id = ?` (used to observe results). -/
def findCampaign (db : Db) (id : Nat) : Option Campaign :=
  db.campaigns.find? fun c => c.id == id

/-- `orchestrator.getConfig(key, default)`. -/
def getConfig (db : Db) (key dflt : String) : String :=
  match db.config.lookup key with
  | some v => v
  | none => dflt

/-- `UPDATE prospects SET stage = ? WHERE id = ?` (with `updated_at`, which is
not modelled). -/
def setProspectStage (db : Db) (id : Nat) (stage : String) : Db :=
  { db with prospects :=
      db.prospects.map fun p => if p.id = id then { p with stage := stage } else p }

/-- `UPDATE prospects SET automation_enabled = 0 WHERE id = ?`. -/
def disableAutomation (db : Db) (id : Nat) : Db :=
  { db with prospects :=
      db.prospects.map fun p =>
        if p.id = id then { p with automation_enabled := false } else p }

/-- `UPDATE follow_up_sequences SET is_paused = 1 WHERE prospect_id = ?`. -/
def pauseSequencesOf (db : Db) (pid : Nat) : Db :=
  { db with sequences :=
      db.sequences.map fun s =>
        if s.prospect_id = pid then { s with is_paused := true } else s }

/-- `INSERT INTO activities (prospect_id, type, description) VALUES (?,?,?)`. -/
def insertActivity (db : Db) (pid : Nat) (type description : String) : Db :=
  { db with activities := db.activities ++ [⟨pid, type, description⟩] }

/-- `INSERT INTO notifications (type, title, message, prospect_id, action_url)`. -/
def insertNotification (db : Db) (n : Notification) : Db :=
  { db with notifications := db.notifications ++ [n] }

/-- `INSERT INTO campaigns ... VALUES (..., ?)` returning `lastInsertRowid`. -/
def insertCampaign (db : Db) (pid : Nat) (tid : Option Nat)
    (subject body status : String) : Nat × Db :=
  let id := db.campaignCounter + 1
  (id, { db with
          campaignCounter := id,
          campaigns := db.campaigns ++ [⟨id, pid, tid, subject, body, status, none⟩] })

/-- `UPDATE campaigns SET status = ? WHERE id = ?`. -/
def setCampaignStatus (db : Db) (cid : Nat) (status : String) : Db :=
  { db with campaigns :=
      db.campaigns.map fun c => if c.id = cid then { c with status := status } else c }

/-- `UPDATE campaigns SET status = 'sent', sent_at = CURRENT_TIMESTAMP WHERE id = ?`. -/
def setCampaignSent (db : Db) (cid : Nat) (now : Nat) : Db :=
  { db with campaigns :=
      db.campaigns.map fun c =>
        if c.id = cid then { c with status := "sent", sent_at := some now } else c }

/-! ### JavaScript helpers -/

/-- Truthiness of a nullable string: `!x` holds for SQL NULL and for `""`. -/
def isBlank : Option String → Bool
  | none => true
  | some s => s = ""

/-- `parseInt(s)` for the non-negative numerals the configuration holds:
`none` models `NaN` (no leading digits after trimming). -/
def jsParseInt (s : String) : Option Nat :=
  let ds := s.trim.data.takeWhile Char.isDigit
  if ds.isEmpty then none
  else some (ds.foldl (fun a c => a * 10 + digitVal c) 0)

/-- `x || d` on an optional number: `NaN` (`none`) and `0` are falsy. -/
def jsOr (x : Option Nat) (d : Nat) : Nat :=
  match x with
  | some v => if v = 0 then d else v
  | none => d

/-- `arr[i]` on a JavaScript array: out-of-range access yields `undefined`,
and an element may itself be `NaN`; both map to `none`. -/
def jsIndex (l : List (Option Nat)) (i : Nat) : Option Nat :=
  match l.get? i with
  | some v => v
  | none => none

/-! ## Task queue / Orchestrator (`server/agents/orchestrator.js`)

The registered agents of the JavaScript `Map` become an association list from
type tags to execution behaviours.  An agent behaviour takes the prospect id
and the decoded payload, and returns either a result (any JSON value) or a
thrown error message, together with the store it leaves behind. -/

/-- The outcome of one `agent.execute` call: a returned value or a thrown
error. -/
inductive ExecOutcome where
  | ok (result : Json)
  | err (msg : String)

/-- The behaviour of a registered agent. -/
def AgentRun : Type := Nat → Json → Db → ExecOutcome × Db

/-- The agent registry (`orchestrator.agents`). -/
def Registry : Type := List (String × AgentRun)

/-- `queueTask({agentType, prospectId, payload = {}, scheduledFor = null})`:
insert a pending task, serialising the payload with `JSON.stringify`, and
return `lastInsertRowid`. -/
def queueTask (now : Nat) (agentType : String) (prospectId : Nat) (payload : Json)
    (scheduledFor : Option Nat) (db : Db) : Nat × Db :=
  let id := db.taskCounter + 1
  (id, { db with
          taskCounter := id,
          tasks := db.tasks ++ [{
            id := id, prospect_id := prospectId, agent_type := agentType,
            status := "pending", scheduled_for := scheduledFor,
            payload := some (Json.stringify payload), result := none,
            error := none, attempts := 0, created_at := now,
            completed_at := none }] })

/-- `scheduled_for IS NULL OR scheduled_for <= datetime('now')`. -/
def dueAt (now : Nat) : Option Nat → Bool
  | none => true
  | some s => s ≤ now

/-- Insert a task into a list sorted by `created_at` (ascending, stable). -/
def insertByCreated (t : Task) : List Task → List Task
  | [] => [t]
  | u :: us =>
    if t.created_at ≤ u.created_at then t :: u :: us else u :: insertByCreated t us

/-- `ORDER BY created_at ASC` (stable sort by creation time). -/
def sortByCreated : List Task → List Task
  | [] => []
  | t :: ts => insertByCreated t (sortByCreated ts)

/-- `getPendingTasks(limit = 10)`: the pending tasks whose `scheduled_for`
has arrived, ordered by `created_at`, limited to `limit` rows. -/
def getPendingTasks (db : Db) (now : Nat) (limit : Nat) : List Task :=
  (sortByCreated (db.tasks.filter fun t =>
    t.status == "pending" && dueAt now t.scheduled_for)).take limit

/-- `updateTaskStatus(taskId, status, result = null, error = null)`: one SQL
UPDATE that sets the status, result and error, stamps `completed_at` exactly
for `completed`/`failed` (and clears it otherwise), and increments
`attempts` — on every call, whatever the status. -/
def updateTaskStatus (now : Nat) (taskId : Nat) (status : String)
    (result : Option Json) (error : Option String) (db : Db) : Db :=
  { db with tasks :=
      db.tasks.map fun t =>
        if t.id = taskId then
          { t with
            status := status,
            result := result.map Json.stringify,
            error := error,
            completed_at :=
              if status = "completed" ∨ status = "failed" then some now else none,
            attempts := t.attempts + 1 }
        else t }

/-- `task.payload ? JSON.parse(task.payload) : {}`: a NULL (or empty, hence
falsy) stored payload is delivered as the empty object; `none` models the
`JSON.parse` exception on a malformed stored payload. -/
def dispatchPayload : Option String → Option Json
  | none => some (Json.obj [])
  | some s => if s = "" then some (Json.obj []) else Json.parse s

/-- `processTask(task)`: dispatch one drained task snapshot.  An unregistered
agent type fails the task immediately; otherwise the task is marked
`processing`, the agent runs, and the outcome is recorded — `completed` on
return, and on a thrown error a retry (`pending`) while the drained snapshot
shows fewer than 3 attempts, `failed` from then on. -/
def processTask (reg : Registry) (now : Nat) (task : Task) (db : Db) : Db :=
  match reg.lookup task.agent_type with
  | none =>
    updateTaskStatus now task.id "failed" none
      (some ("No agent for type: " ++ task.agent_type)) db
  | some run =>
    let db1 := updateTaskStatus now task.id "processing" none none db
    match dispatchPayload task.payload with
    | none =>
      -- `JSON.parse` threw inside the `try` block: same retry path as an
      -- agent error, with the parse error as message.
      if task.attempts < 3 then
        updateTaskStatus now task.id "pending" none (some "Unexpected token in JSON") db1
      else
        updateTaskStatus now task.id "failed" none (some "Unexpected token in JSON") db1
    | some payload =>
      match run task.prospect_id payload db1 with
      | (.ok result, db2) => updateTaskStatus now task.id "completed" (some result) none db2
      | (.err msg, db2) =>
        if task.attempts < 3 then
          updateTaskStatus now task.id "pending" none (some msg) db2
        else
          updateTaskStatus now task.id "failed" none (some msg) db2

/-- `processPendingTasks()`: drain (default limit 10) and dispatch each
drained snapshot in order; returns how many were attempted. -/
def processPendingTasks (reg : Registry) (now : Nat) (db : Db) : Db × Nat :=
  let tasks := getPendingTasks db now 10
  (tasks.foldl (fun acc t => processTask reg now t acc) db, tasks.length)

/-- `n` scheduler ticks, each running `processPendingTasks`. -/
def iterateTicks (reg : Registry) (now : Nat) : Nat → Db → Db
  | 0, db => db
  | n + 1, db => (processPendingTasks reg now (iterateTicks reg now n db)).1

/-! ## Stage state machine (`StageAgent` in `server/agents/responseAgent.js`) -/

/-- `this.stageOrder`. -/
def stageOrder : List String :=
  ["new", "contacted", "responded", "meeting_scheduled", "proposal_sent", "won", "lost"]

/-- `this.validTransitions[fromStage] || []`: the transition table, with the
JavaScript property-lookup default of `[]` for unknown stages. -/
def validTransitions (fromStage : String) : List String :=
  if fromStage = "new" then ["contacted", "lost"]
  else if fromStage = "contacted" then ["responded", "lost"]
  else if fromStage = "responded" then ["meeting_scheduled", "lost"]
  else if fromStage = "meeting_scheduled" then ["proposal_sent", "won", "lost"]
  else if fromStage = "proposal_sent" then ["won", "lost"]
  else if fromStage = "won" then []
  else if fromStage = "lost" then ["new"]
  else []

/-- `isValidTransition(fromStage, toStage)`. -/
def isValidTransition (fromStage toStage : String) : Bool :=
  (validTransitions fromStage).contains toStage

/-- `Array.prototype.indexOf`: position in `stageOrder`, `-1` if absent. -/
def jsIndexOf (l : List String) (s : String) : Int :=
  match l.findIdx? (· == s) with
  | some i => (i : Int)
  | none => -1

/-- The object `transitionTo` (and the other StageAgent entry points) return.
The JavaScript objects are ad hoc; the fields below cover every shape, with
absent fields as `none`. -/
structure TransitionResult where
  success : Bool
  message : String
  previousStage : Option String
  newStage : Option String
deriving Repr, DecidableEq

/-- An LLM response classification result. -/
structure Classification where
  classification : String
  confidence : Nat
  summary : String
deriving Repr, DecidableEq

/-- The `follow_up_days` configuration string. -/
def followUpDaysCfg (db : Db) : String :=
  getConfig db "follow_up_days" "3,7,14"

/-- `followUpDays.split(',').length`. -/
def cfgMaxSteps (s : String) : Nat := (s.splitOn ",").length

/-- `parseInt(followUpDays.split(',')[0]) || 3`. -/
def cfgDaysBetween (s : String) : Nat :=
  jsOr (jsParseInt ((s.splitOn ",").headD "")) 3

/-- `handleStageEffects(prospect, newStage)`: the side effects of entering a
stage. -/
def handleStageEffects (now : Nat) (prospect : Prospect) (newStage : String)
    (db : Db) : Db :=
  if newStage = "contacted" then
    match findSequence db prospect.id with
    | some _ => db
    | none =>
      let cfg := followUpDaysCfg db
      let daysBetween := cfgDaysBetween cfg
      { db with sequences := db.sequences ++ [{
          prospect_id := prospect.id, sequence_step := 0,
          max_steps := cfgMaxSteps cfg, days_between := daysBetween,
          is_paused := false, last_sent_at := none,
          next_send_at := some (now + daysBetween) }] }
  else if newStage = "responded" then
    pauseSequencesOf db prospect.id
  else if newStage = "meeting_scheduled" then
    let db1 := insertNotification db {
      type := "meeting_scheduled",
      title := "Meeting scheduled with " ++ prospect.business_name,
      message := "Time to reach out and confirm the meeting details.",
      prospect_id := some prospect.id,
      action_url := some ("/prospect/" ++ toString prospect.id) }
    disableAutomation db1 prospect.id
  else if newStage = "won" then
    insertNotification db {
      type := "deal_won",
      title := "Deal won: " ++ prospect.business_name,
      message := "Congratulations on closing the deal!",
      prospect_id := some prospect.id,
      action_url := some ("/prospect/" ++ toString prospect.id) }
  else if newStage = "lost" then
    pauseSequencesOf (disableAutomation db prospect.id) prospect.id
  else db

/-- `transitionTo(prospect, newStage, reason)`: validate against the table;
on failure return a structured failure result and leave the store untouched;
on success write the stage, log the activity and run the stage side
effects. -/
def transitionTo (now : Nat) (prospect : Prospect) (newStage : String)
    (reason : Option String) (db : Db) : TransitionResult × Db :=
  if !isValidTransition prospect.stage newStage then
    ({ success := false,
       message := "Invalid transition from \"" ++ prospect.stage ++ "\" to \""
                  ++ newStage ++ "\"",
       previousStage := none, newStage := none }, db)
  else
    let description :=
      match reason with
      | some r => "Stage changed from \"" ++ prospect.stage ++ "\" to \""
                  ++ newStage ++ "\" by Stage Agent: " ++ r
      | none => "Stage changed from \"" ++ prospect.stage ++ "\" to \""
                ++ newStage ++ "\" by Stage Agent"
    let db1 := setProspectStage db prospect.id newStage
    let db2 := insertActivity db1 prospect.id "stage_change" description
    let db3 := handleStageEffects now prospect newStage db2
    ({ success := true, message := description,
       previousStage := some prospect.stage, newStage := some newStage }, db3)

/-- The classification-to-stage map of `StageAgent.handleClassification`. -/
def classificationStageMap (c : String) : Option String :=
  if c = "INTERESTED" then some "responded"
  else if c = "MEETING_REQUEST" then some "meeting_scheduled"
  else if c = "NOT_INTERESTED" then some "lost"
  else if c = "QUESTION" then some "responded"
  else none

/-- `StageAgent.handleClassification(prospect, classification)`: map the
classification to a stage and transition only forward or to `lost`. -/
def stageHandleClassification (now : Nat) (prospect : Prospect)
    (cls : Classification) (db : Db) : TransitionResult × Db :=
  match classificationStageMap cls.classification with
  | none =>
    ({ success := false,
       message := "No stage mapping for classification: " ++ cls.classification,
       previousStage := none, newStage := none }, db)
  | some suggestedStage =>
    let currentIndex := jsIndexOf stageOrder prospect.stage
    let targetIndex := jsIndexOf stageOrder suggestedStage
    if suggestedStage = "lost" ∨ currentIndex < targetIndex then
      transitionTo now prospect suggestedStage
        (some ("Response classified as " ++ cls.classification)) db
    else
      ({ success := false,
         message := "Stage \"" ++ prospect.stage ++ "\" is already at or past \""
                    ++ suggestedStage ++ "\"",
         previousStage := none, newStage := none }, db)

/-- `StageAgent.evaluateProspect(prospect)`: stage-dependent checks against
campaigns and email events. -/
def stageEvaluateProspect (now : Nat) (prospect : Prospect) (db : Db) :
    TransitionResult × Db :=
  let campaigns := db.campaigns.filter fun c => c.prospect_id == prospect.id
  let events := db.emailEvents.filter fun e => e.prospect_id == prospect.id
  let noChange : TransitionResult :=
    { success := true, message := "No stage change needed",
      previousStage := none, newStage := none }
  if prospect.stage = "new" then
    if campaigns.any fun c => c.status == "sent" || c.status == "delivered" then
      transitionTo now prospect "contacted" (some "Email has been sent") db
    else (noChange, db)
  else if prospect.stage = "contacted" then
    if events.any fun e => e.event_type == "reply" then
      transitionTo now prospect "responded" (some "Reply received") db
    else (noChange, db)
  else (noChange, db)

/-- The payload fields `StageAgent.execute` reads. -/
structure StagePayload where
  classification : Option Classification
  suggestedStage : Option String
  reason : Option String
deriving Repr, DecidableEq

/-- `StageAgent.execute(prospectId, payload)`. -/
def stageExecute (now : Nat) (prospectId : Nat) (payload : StagePayload)
    (db : Db) : Except String (TransitionResult × Db) :=
  match findProspect db prospectId with
  | none => .error ("Prospect " ++ toString prospectId ++ " not found")
  | some prospect =>
    match payload.suggestedStage with
    | some s => .ok (transitionTo now prospect s payload.reason db)
    | none =>
      match payload.classification with
      | some cls => .ok (stageHandleClassification now prospect cls db)
      | none => .ok (stageEvaluateProspect now prospect db)

/-! ## External collaborators

One record of oracle results stands for the LLM service and the Resend email
client.  Each field is the outcome of the corresponding collaborator call:
`Except.error` models a thrown exception.  The literal prompts (conversation
history, selected template, website analysis) only influence which text the
LLM returns, so they are absorbed into the oracle and not modelled. -/

/-- `emailService.send(...)` resolution value. -/
structure EmailOk where
  success : Bool
  id : Option String
  error : Option String
deriving Repr, DecidableEq

/-- Collaborator oracle. -/
structure Collab where
  emailReady : Bool
  emailSend : Except String EmailOk
  llmFollowUpBody : Except String String
  llmSubjectLine : Except String String
  llmOutreachBody : Except String String
  llmClassify : Except String Classification

/-! ## Response classifier agent (`ResponseAgent` in
`server/agents/responseAgent.js`) -/

/-- `ResponseAgent.updateProspectStage(prospect, newStage)`: write the stage
with no transition-table validation, logging an activity, and do nothing if
the stage would not change. -/
def responseUpdateProspectStage (prospect : Prospect) (newStage : String)
    (db : Db) : Db :=
  if prospect.stage = newStage then db
  else
    insertActivity (setProspectStage db prospect.id newStage) prospect.id
      "stage_change"
      ("Stage changed from \"" ++ prospect.stage ++ "\" to \"" ++ newStage
        ++ "\" by Response Agent")

/-- `ResponseAgent.createNotification(prospect, {...})`. -/
def responseCreateNotification (prospect : Prospect) (type title message : String)
    (db : Db) : Db :=
  insertNotification db {
    type := type, title := title, message := message,
    prospect_id := some prospect.id,
    action_url := some ("/prospect/" ++ toString prospect.id) }

/-- A `Classification` as the JavaScript object it came from, used when it is
re-serialised into a queued task payload. -/
def classificationToJson (c : Classification) : Json :=
  .obj [("classification", .str c.classification),
        ("confidence", .num c.confidence),
        ("summary", .str c.summary)]

/-- `UPDATE follow_up_sequences SET next_send_at = ?, is_paused = 0 WHERE
prospect_id = ?` (the OUT_OF_OFFICE reschedule). -/
def rescheduleSequence (db : Db) (pid : Nat) (next : Nat) : Db :=
  { db with sequences :=
      db.sequences.map fun s =>
        if s.prospect_id = pid then
          { s with next_send_at := some next, is_paused := false }
        else s }

/-- `ResponseAgent.handleClassification(prospect, classification,
responseText)`: the per-classification actions. -/
def responseHandleClassification (now : Nat) (prospect : Prospect)
    (cls : Classification) (db : Db) : Db :=
  if cls.classification = "INTERESTED" then
    let db1 := responseUpdateProspectStage prospect "responded" db
    let db2 := responseCreateNotification prospect "interested"
      (prospect.business_name ++ " is interested!") cls.summary db1
    (queueTask now "stage_manager" prospect.id
      (Json.obj [("classification", classificationToJson cls),
                 ("suggestedStage", Json.str "responded")]) none db2).2
  else if cls.classification = "MEETING_REQUEST" then
    let db1 := responseUpdateProspectStage prospect "meeting_scheduled" db
    let db2 := responseCreateNotification prospect "meeting_request"
      (prospect.business_name ++ " wants to meet!")
      ("They requested a meeting: \"" ++ cls.summary ++ "\"") db1
    pauseSequencesOf (disableAutomation db2 prospect.id) prospect.id
  else if cls.classification = "NOT_INTERESTED" then
    let db1 := responseUpdateProspectStage prospect "lost" db
    let db2 := pauseSequencesOf (disableAutomation db1 prospect.id) prospect.id
    responseCreateNotification prospect "not_interested"
      (prospect.business_name ++ " declined") cls.summary db2
  else if cls.classification = "QUESTION" then
    let db1 := responseUpdateProspectStage prospect "responded" db
    let db2 := responseCreateNotification prospect "question"
      (prospect.business_name ++ " has a question") cls.summary db1
    pauseSequencesOf db2 prospect.id
  else if cls.classification = "OUT_OF_OFFICE" then
    let db1 := rescheduleSequence db prospect.id (now + 5)
    insertActivity db1 prospect.id "auto_reply_detected"
      "Out of office detected, follow-up rescheduled"
  else
    -- UNCLEAR and the default case
    let db1 := responseCreateNotification prospect "review_needed"
      ("Review needed: " ++ prospect.business_name)
      ("Response couldn't be classified: " ++ cls.summary) db
    pauseSequencesOf db1 prospect.id

/-- The payload fields `ResponseAgent.execute` reads. -/
structure ResponsePayload where
  responseText : Option String
  subject : String
  -- the source field is called `from`, a Lean keyword
  fromAddr : Option String
deriving Repr, DecidableEq

/-- What `ResponseAgent.execute` returns. -/
inductive ResponseOutcome where
  | pendingReview
  | classified (cls : Classification)
deriving Repr, DecidableEq

/-- `ResponseAgent.execute(prospectId, payload)`. -/
def responseExecute (env : Collab) (now : Nat) (prospectId : Nat)
    (payload : ResponsePayload) (db : Db) : Except String (ResponseOutcome × Db) :=
  match findProspect db prospectId with
  | none => .error ("Prospect " ++ toString prospectId ++ " not found")
  | some prospect =>
    if isBlank payload.responseText then
      .error "No response text provided for classification"
    else if getConfig db "auto_classify" "true" ≠ "true" then
      .ok (.pendingReview,
        insertActivity db prospectId "response_pending_review"
          ("Reply pending manual review: \"" ++ payload.subject ++ "\""))
    else
      match env.llmClassify with
      | .error e => .error e
      | .ok cls =>
        let db1 := insertActivity db prospectId "response_classified"
          ("Response classified as " ++ cls.classification ++ " ("
            ++ toString cls.confidence ++ "% confidence): " ++ cls.summary)
        .ok (.classified cls, responseHandleClassification now prospect cls db1)

/-! ## Follow-up agent (`FollowupAgent` in `server/agents/followupAgent.js`) -/

/-- What the agents' `sendEmail` helpers return. -/
structure SendOutcome where
  sent : Bool
  error : Option String
  messageId : Option String
deriving Repr, DecidableEq

/-- `FollowupAgent.sendEmail(prospect, subject, body, campaignId)`: downgrade
the campaign to `draft` when there is no address or the delivery service is
unconfigured; mark it `failed` on a rejected or thrown send; mark it `sent`
and log the activity on success.  Never throws. -/
def followupSendEmail (env : Collab) (prospect : Prospect)
    (subject _body : String) (campaignId : Nat) (now : Nat) (db : Db) :
    SendOutcome × Db :=
  if isBlank prospect.email then
    ({ sent := false, error := some "No email address", messageId := none },
     setCampaignStatus db campaignId "draft")
  else if !env.emailReady then
    ({ sent := false, error := some "Email service not configured", messageId := none },
     setCampaignStatus db campaignId "draft")
  else
    match env.emailSend with
    | .error msg =>
      ({ sent := false, error := some msg, messageId := none },
       setCampaignStatus db campaignId "failed")
    | .ok r =>
      if !r.success then
        ({ sent := false, error := r.error, messageId := none },
         setCampaignStatus db campaignId "failed")
      else
        let db1 := setCampaignSent db campaignId now
        let db2 := insertActivity db1 prospect.id "email_sent"
          ("Follow-up Agent sent email: \"" ++ subject ++ "\"")
        ({ sent := true, error := none, messageId := r.id }, db2)

/-- What `FollowupAgent.execute` returns: a skip, the max-steps
`{completed: true, reason}` object, or the send report. -/
inductive FollowupOutcome where
  | skipped (reason : String)
  | maxReached (reason : String)
  | report (campaignId followUpNumber : Nat) (subject : String) (sent : Bool)
      (error : Option String)
deriving Repr, DecidableEq

/-- `UPDATE follow_up_sequences SET sequence_step = ?, last_sent_at =
CURRENT_TIMESTAMP, next_send_at = ? WHERE prospect_id = ?`. -/
def updateSequenceProgress (db : Db) (pid step now next : Nat) : Db :=
  { db with sequences :=
      db.sequences.map fun s =>
        if s.prospect_id = pid then
          { s with sequence_step := step, last_sent_at := some now,
                   next_send_at := some next }
        else s }

/-- `FollowupAgent.execute(prospectId, payload)` (the payload is never
read).  Guard order follows the source: automation flag, stage, sequence
existence, pause flag, then the max-steps check, which writes the stage
directly (no `transitionTo`) and returns without sending. -/
def followupExecute (env : Collab) (now : Nat) (prospectId : Nat) (db : Db) :
    Except String (FollowupOutcome × Db) :=
  match findProspect db prospectId with
  | none => .error ("Prospect " ++ toString prospectId ++ " not found")
  | some prospect =>
    if !prospect.automation_enabled then
      .ok (.skipped "Automation disabled for this prospect", db)
    else if prospect.stage ≠ "contacted" then
      .ok (.skipped ("Prospect stage is \"" ++ prospect.stage ++ "\", not \"contacted\""), db)
    else
      match findSequence db prospectId with
      | none => .ok (.skipped "No follow-up sequence found", db)
      | some sequence =>
        if sequence.is_paused then
          .ok (.skipped "Follow-up sequence is paused", db)
        else if sequence.max_steps ≤ sequence.sequence_step then
          let db1 := setProspectStage db prospectId "lost"
          let db2 := insertActivity db1 prospectId "stage_change"
            "Moved to lost - max follow-ups reached with no response"
          .ok (.maxReached "Max follow-ups reached, moved to lost", db2)
        else
          let followUpNumber := sequence.sequence_step + 1
          match env.llmFollowUpBody with
          | .error e => .error e
          | .ok emailBody =>
            match env.llmSubjectLine with
            | .error e => .error e
            | .ok emailSubject =>
              let (campaignId, db1) :=
                insertCampaign db prospectId none emailSubject emailBody "pending"
              let db2 := insertActivity db1 prospectId "agent_action"
                ("Follow-up Agent generated follow-up #" ++ toString followUpNumber
                  ++ ": \"" ++ emailSubject ++ "\"")
              let (sendResult, db3) :=
                followupSendEmail env prospect emailSubject emailBody campaignId now db2
              let db4 :=
                if sendResult.sent then
                  let daysArray :=
                    ((followUpDaysCfg db3).splitOn ",").map fun d => jsParseInt d
                  let nextDays :=
                    jsOr (jsIndex daysArray followUpNumber)
                      (jsOr (jsIndex daysArray (daysArray.length - 1)) 7)
                  updateSequenceProgress db3 prospectId followUpNumber now (now + nextDays)
                else db3
              .ok (.report campaignId followUpNumber emailSubject
                    sendResult.sent sendResult.error, db4)

/-! ## Outreach agent (`OutreachAgent` in `server/agents/outreachAgent.js`) -/

/-- `value || ''` for a nullable column. -/
def jsStr (v : Option String) : String := v.getD ""

/-- `OutreachAgent.replaceVariables(text, prospect)`: global replacement of
the `\x7b\x7bkey\x7d\x7d` placeholders, in the source's entry order, with
falsy values replaced by the empty string. -/
def replaceVariables (text : String) (p : Prospect) : String :=
  if text = "" then text
  else
    ((((((((text.replace "\x7b\x7bbusiness_name\x7d\x7d" p.business_name).replace
      "\x7b\x7bcity\x7d\x7d" (jsStr p.city)).replace
      "\x7b\x7bstate\x7d\x7d" (jsStr p.state)).replace
      "\x7b\x7bcategory\x7d\x7d" (jsStr p.category)).replace
      "\x7b\x7bindustry\x7d\x7d" (jsStr p.category)).replace
      "\x7b\x7bowner_name\x7d\x7d" "there").replace
      "\x7b\x7brating\x7d\x7d" (jsStr p.rating)).replace
      "\x7b\x7breview_count\x7d\x7d" (jsStr p.review_count))

/-- `name LIKE '%No Website%'`. -/
def nameLikeNoWebsite (name : String) : Bool :=
  (name.splitOn "No Website").length ≥ 2

/-- `OutreachAgent.selectBestTemplate(prospect)`: prefer the "No Website"
email template for prospects without a website, otherwise the first email
template by id (the template list is kept in id order, so `find?` is
`ORDER BY id ASC LIMIT 1`). -/
def selectBestTemplate (db : Db) (prospect : Prospect) : Option Template :=
  if isBlank prospect.website_url then
    match db.templates.find? fun t => t.type == "email" && nameLikeNoWebsite t.name with
    | some t => some t
    | none => db.templates.find? fun t => t.type == "email"
  else db.templates.find? fun t => t.type == "email"

/-- `OutreachAgent.sendEmail(...)`: like the follow-up variant, plus an
`email_drafted` activity when there is no address, and the `new → contacted`
stage write after a successful send. -/
def outreachSendEmail (env : Collab) (prospect : Prospect)
    (subject _body : String) (campaignId : Nat) (now : Nat) (db : Db) :
    SendOutcome × Db :=
  if isBlank prospect.email then
    let db1 := setCampaignStatus db campaignId "draft"
    let db2 := insertActivity db1 prospect.id "email_drafted"
      "Email drafted - no email address on file"
    ({ sent := false, error := some "No email address", messageId := none }, db2)
  else if !env.emailReady then
    ({ sent := false, error := some "Email service not configured", messageId := none },
     setCampaignStatus db campaignId "draft")
  else
    match env.emailSend with
    | .error msg =>
      ({ sent := false, error := some msg, messageId := none },
       setCampaignStatus db campaignId "failed")
    | .ok r =>
      if !r.success then
        ({ sent := false, error := r.error, messageId := none },
         setCampaignStatus db campaignId "failed")
      else
        let db1 := setCampaignSent db campaignId now
        let db2 := insertActivity db1 prospect.id "email_sent"
          ("Outreach Agent sent email: \"" ++ subject ++ "\"")
        let db3 :=
          if prospect.stage = "new" then
            insertActivity (setProspectStage db2 prospect.id "contacted")
              prospect.id "stage_change"
              "Stage changed from \"new\" to \"contacted\" by Outreach Agent"
          else db2
        ({ sent := true, error := none, messageId := r.id }, db3)

/-- `OutreachAgent.initializeFollowUpSequence(prospectId)`: `INSERT OR
REPLACE` of the prospect's sequence at step 0 (replacement drops any
conflicting row and appends at a fresh rowid). -/
def initializeFollowUpSequence (now : Nat) (db : Db) (pid : Nat) : Db :=
  let cfg := followUpDaysCfg db
  let daysBetween := cfgDaysBetween cfg
  { db with sequences :=
      (db.sequences.filter fun s => s.prospect_id ≠ pid) ++ [{
        prospect_id := pid, sequence_step := 0, max_steps := cfgMaxSteps cfg,
        days_between := daysBetween, is_paused := false,
        last_sent_at := some now, next_send_at := some (now + daysBetween) }] }

/-- The payload fields `OutreachAgent.execute` reads. -/
structure OutreachPayload where
  templateId : Option Nat
  useAI : Option Bool
deriving Repr, DecidableEq

/-- What `OutreachAgent.execute` returns. -/
inductive OutreachOutcome where
  | skipped (reason : String)
  | report (campaignId : Nat) (subject : String) (sent : Bool) (error : Option String)
deriving Repr, DecidableEq

/-- The tail of `OutreachAgent.execute` once subject and body are fixed:
create the pending campaign, log, attempt delivery, and initialise the
follow-up sequence after a successful send. -/
def outreachFinish (env : Collab) (now : Nat) (prospectId : Nat)
    (payload : OutreachPayload) (prospect : Prospect)
    (emailSubject emailBody : String) (db : Db) : OutreachOutcome × Db :=
  let (campaignId, db1) :=
    insertCampaign db prospectId payload.templateId emailSubject emailBody "pending"
  let db2 := insertActivity db1 prospectId "agent_action"
    ("Outreach Agent generated email: \"" ++ emailSubject ++ "\"")
  let (sendResult, db3) :=
    outreachSendEmail env prospect emailSubject emailBody campaignId now db2
  let db4 := if sendResult.sent then initializeFollowUpSequence now db3 prospectId else db3
  (.report campaignId emailSubject sendResult.sent sendResult.error, db4)

/-- `OutreachAgent.execute(prospectId, payload)`.  Guards: per-prospect
automation flag, the global `auto_outreach` switch, then duplicate
suppression (any existing campaign row).  Content comes from the referenced
template unless it is missing/blank or `useAI !== false`, in which case the
LLM writes it (the selected template and any stored website analysis only
shape the prompt, which the `Collab` oracle absorbs). -/
def outreachExecute (env : Collab) (now : Nat) (prospectId : Nat)
    (payload : OutreachPayload) (db : Db) : Except String (OutreachOutcome × Db) :=
  match findProspect db prospectId with
  | none => .error ("Prospect " ++ toString prospectId ++ " not found")
  | some prospect =>
    if !prospect.automation_enabled then
      .ok (.skipped "Automation disabled for this prospect", db)
    else if getConfig db "auto_outreach" "true" ≠ "true" then
      .ok (.skipped "Auto outreach disabled globally", db)
    else if 0 < (db.campaigns.filter fun c => c.prospect_id == prospectId).length then
      .ok (.skipped "Prospect already has email campaigns", db)
    else
      let fromTemplate : Option (String × String) :=
        match payload.templateId with
        | some tid =>
          match findTemplate db tid with
          | some tpl =>
            some (replaceVariables tpl.body prospect,
                  replaceVariables (jsStr tpl.subject) prospect)
          | none => none
        | none => none
      match fromTemplate with
      | some (tb, ts) =>
        if tb = "" ∨ payload.useAI ≠ some false then
          match env.llmOutreachBody with
          | .error e => .error e
          | .ok emailBody =>
            match env.llmSubjectLine with
            | .error e => .error e
            | .ok emailSubject =>
              .ok (outreachFinish env now prospectId payload prospect
                    emailSubject emailBody db)
        else .ok (outreachFinish env now prospectId payload prospect ts tb db)
      | none =>
        match env.llmOutreachBody with
        | .error e => .error e
        | .ok emailBody =>
          match env.llmSubjectLine with
          | .error e => .error e
          | .ok emailSubject =>
            .ok (outreachFinish env now prospectId payload prospect
                  emailSubject emailBody db)

/-! ## Inbound reply webhook (`POST /webhooks/sendgrid/inbound` in
`server/routes/campaigns.js`)

The part after request decoding: find the prospect by sender address, record
the event and activity, move `new`/`contacted` prospects to `responded`
directly (no transition-table check), pause the sequence, and queue a
`response_classifier` task whose payload round-trips through
`JSON.stringify`. -/
def inboundReplyWebhook (now : Nat) (fromEmail responseText subject : String)
    (db : Db) : Option Nat × Db :=
  match db.prospects.find? (fun p => p.email == some fromEmail) with
  | none => (none, db)
  | some prospect =>
    let db1 := { db with emailEvents := db.emailEvents ++ [{
      prospect_id := prospect.id, event_type := "reply",
      email_address := fromEmail, email_content := responseText }] }
    let db2 := insertActivity db1 prospect.id "email_reply"
      ("Reply received: \"" ++ subject ++ "\"")
    let db3 :=
      if prospect.stage = "new" ∨ prospect.stage = "contacted" then
        insertActivity (setProspectStage db2 prospect.id "responded") prospect.id
          "stage_change" "Stage changed to \"responded\" - email reply received"
      else db2
    let db4 := pauseSequencesOf db3 prospect.id
    let db5 := (queueTask now "response_classifier" prospect.id
      (Json.obj [("responseText", .str responseText), ("subject", .str subject),
                 ("from", .str fromEmail)]) none db4).2
    (some prospect.id, db5)

/-! ## Concrete sample data (used by witnesses and counterexamples) -/

/-- A store with no rows. -/
def emptyDb : Db :=
  { prospects := [], tasks := [], campaigns := [], sequences := [],
    activities := [], notifications := [], emailEvents := [], templates := [],
    config := [], taskCounter := 0, campaignCounter := 0 }

/-- A prospect row with the given pipeline-relevant fields. -/
def sampleProspect (id : Nat) (email : Option String) (stage : String)
    (automation : Bool) : Prospect :=
  { id := id, business_name := "Acme Plumbing", email := email, stage := stage,
    automation_enabled := automation, website_url := none, city := none,
    state := none, category := none, rating := none, review_count := none }

/-- A follow-up sequence row due now. -/
def sampleSequence (pid step maxSteps : Nat) (paused : Bool) : FollowUpSequence :=
  { prospect_id := pid, sequence_step := step, max_steps := maxSteps,
    days_between := 3, is_paused := paused, last_sent_at := none,
    next_send_at := some 0 }

/-- A freshly enqueued task row. -/
def sampleTask (id : Nat) (atype : String) (created : Nat) (sched : Option Nat) : Task :=
  { id := id, prospect_id := 1, agent_type := atype, status := "pending",
    scheduled_for := sched, payload := none, result := none, error := none,
    attempts := 0, created_at := created, completed_at := none }

/-- A collaborator oracle whose calls all succeed, with configurable email
service readiness. -/
def sampleCollab (ready : Bool) : Collab :=
  { emailReady := ready,
    emailSend := .ok { success := true, id := some "msg-1", error := none },
    llmFollowUpBody := .ok "generated follow-up body",
    llmSubjectLine := .ok "Quick question",
    llmOutreachBody := .ok "generated outreach body",
    llmClassify := .ok { classification := "INTERESTED", confidence := 90,
                         summary := "sounds keen" } }

/-- A registry whose single agent always throws: the behaviour of any agent
whose collaborator call fails on every dispatch. -/
def regFail (atype msg : String) : Registry :=
  [(atype, fun _ _ db => (ExecOutcome.err msg, db))]

/-- A concrete payload of the shape the webhook enqueues for the response
classifier. -/
def samplePayload : Json :=
  Json.obj [("prospect_id", Json.num 7), ("email_event_id", Json.num 2),
            ("content", Json.str "Sounds good,\nsend the \"quote\".")]

/-! # Theorems -/

/-! ## List helpers for the row-update pattern

Every UPDATE in the model has the shape
`l.map fun u => if key u = k then g u else u`; these lemmas relate it to
`find?` lookups. -/

theorem find?_map_ite {α : Type} (key : α → Nat) (l : List α) (k : Nat)
    (g : α → α) (hg : ∀ u, key (g u) = key u) (t : α)
    (h : l.find? (fun u => key u == k) = some t) :
    (l.map fun u => if key u = k then g u else u).find? (fun u => key u == k)
      = some (g t) := by
  induction l with
  | nil => simp at h
  | cons a as ih =>
    by_cases hk : key a = k
    · rw [List.find?_cons_of_pos _ (by simp [hk])] at h
      injection h with h
      subst h
      simp only [List.map_cons, if_pos hk]
      rw [List.find?_cons_of_pos _ (by simp [hg, hk])]
    · rw [List.find?_cons_of_neg _ (by simp [hk])] at h
      simp only [List.map_cons, if_neg hk]
      rw [List.find?_cons_of_neg _ (by simp [hk])]
      exact ih h

theorem mem_map_ite {α : Type} (key : α → Nat) (l : List α) (k : Nat)
    (g : α → α) (u : α)
    (h : u ∈ l.map fun v => if key v = k then g v else v) :
    (∃ v ∈ l, key v = k ∧ u = g v) ∨ (u ∈ l ∧ key u ≠ k) := by
  rcases List.mem_map.mp h with ⟨v, hv, rfl⟩
  by_cases hk : key v = k
  · exact Or.inl ⟨v, hv, hk, by simp [hk]⟩
  · right
    simpa [hk] using And.intro hv hk

/-- C4: for every prospect and every target stage not listed in the
transition table for the prospect's current stage — in particular any target
when the current stage is `won` — `transitionTo` returns a structured failure
result carrying a human-readable explanation rather than throwing (the
`StageAgent.execute` wrapper returns it as a normal `.ok` outcome), and the
store, in particular the prospect's stored stage, is completely unchanged. -/
theorem transitionTo_rejects_offtable (now : Nat) (p : Prospect) (target : String)
    (reason : Option String) (db : Db)
    (hinv : isValidTransition p.stage target = false)
    (hp : findProspect db p.id = some p) :
    transitionTo now p target reason db =
      ({ success := false,
         message := "Invalid transition from \"" ++ p.stage ++ "\" to \""
                    ++ target ++ "\"",
         previousStage := none, newStage := none }, db)
    ∧ stageExecute now p.id
        { classification := none, suggestedStage := some target, reason := reason } db =
        .ok ({ success := false,
               message := "Invalid transition from \"" ++ p.stage ++ "\" to \""
                          ++ target ++ "\"",
               previousStage := none, newStage := none }, db)
    ∧ ∀ anyTarget, isValidTransition "won" anyTarget = false := by
  refine ⟨?_, ?_, ?_⟩
  · simp [transitionTo, hinv]
  · simp [stageExecute, hp, transitionTo, hinv]
  · intro anyTarget
    simp [isValidTransition, validTransitions]

/-- Witness for C4: a prospect in stage `won` cannot go back to `contacted`;
the operation reports failure and the store is untouched. -/
theorem transitionTo_rejects_offtable_witness :
    transitionTo 0 (sampleProspect 1 none "won" true) "contacted" none
        { emptyDb with prospects := [sampleProspect 1 none "won" true] } =
      ({ success := false,
         message := "Invalid transition from \"won\" to \"contacted\"",
         previousStage := none, newStage := none },
       { emptyDb with prospects := [sampleProspect 1 none "won" true] }) := by
  have h := transitionTo_rejects_offtable 0 (sampleProspect 1 none "won" true)
    "contacted" none { emptyDb with prospects := [sampleProspect 1 none "won" true] }
    (by decide) (by decide)
  exact h.1

/-- C3: for every prospect whose `automation_enabled` flag is off at
execution time, both the Outreach agent and the FollowUp agent return the
structured skip outcome and leave the store — stage, campaigns, everything —
exactly as it was, whatever tasks were queued and whatever the collaborators
would have answered. -/
theorem automation_disabled_skips_agents (env : Collab) (now pid : Nat)
    (payload : OutreachPayload) (db : Db) (p : Prospect)
    (hp : findProspect db pid = some p)
    (ha : p.automation_enabled = false) :
    followupExecute env now pid db =
      .ok (.skipped "Automation disabled for this prospect", db)
    ∧ outreachExecute env now pid payload db =
      .ok (.skipped "Automation disabled for this prospect", db) := by
  constructor
  · simp [followupExecute, hp, ha]
  · simp [outreachExecute, hp, ha]

/-- Witness for C3: a concrete automation-disabled prospect is skipped by
both agents with the store unchanged. -/
theorem automation_disabled_skips_agents_witness :
    followupExecute (sampleCollab true) 0 1
        { emptyDb with prospects := [sampleProspect 1 (some "a@b.c") "contacted" false] } =
      .ok (.skipped "Automation disabled for this prospect",
        { emptyDb with prospects := [sampleProspect 1 (some "a@b.c") "contacted" false] })
    ∧ outreachExecute (sampleCollab true) 0 1 { templateId := none, useAI := none }
        { emptyDb with prospects := [sampleProspect 1 (some "a@b.c") "contacted" false] } =
      .ok (.skipped "Automation disabled for this prospect",
        { emptyDb with prospects := [sampleProspect 1 (some "a@b.c") "contacted" false] }) :=
  automation_disabled_skips_agents (sampleCollab true) 0 1
    { templateId := none, useAI := none }
    { emptyDb with prospects := [sampleProspect 1 (some "a@b.c") "contacted" false] }
    (sampleProspect 1 (some "a@b.c") "contacted" false) (by decide) (by decide)

/-- C2 counterexample: the claim says no code path ever stores a stage
transition outside `validTransitions`, but the inbound-reply webhook moves a
prospect currently in stage `new` straight to `responded`, which is not in
`validTransitions["new"]`. -/
theorem stage_table_bypassed_by_webhook :
    isValidTransition "new" "responded" = false
    ∧ ((inboundReplyWebhook 7 "a@b.c" "sounds good" "Re: hi"
          { emptyDb with prospects := [sampleProspect 1 (some "a@b.c") "new" true] }).2.prospects.map
        Prospect.stage) = ["responded"] := by
  exact ⟨by decide, by decide⟩

/-- C2 (amended): `StageAgent.transitionTo` succeeds exactly when the target
is listed in `validTransitions` for the prospect's current stage, and a
rejected transition leaves the store unchanged; but the stage writes of
`ResponseAgent.updateProspectStage` and of the inbound-reply webhook do not
consult the table — the webhook moves any `new`/`contacted` prospect to
`responded` unconditionally. -/
theorem transitionTo_success_iff_table (now : Nat) (p : Prospect)
    (target : String) (reason : Option String) (db : Db) :
    ((transitionTo now p target reason db).1.success = true
      ↔ isValidTransition p.stage target = true)
    ∧ (isValidTransition p.stage target = false →
        (transitionTo now p target reason db).2 = db)
    ∧ (∀ newStage db2, p.stage ≠ newStage →
        ∀ q, q ∈ (responseUpdateProspectStage p newStage db2).prospects →
          q.id = p.id → q.stage = newStage)
    ∧ (∀ now2 fromEmail text subj db2,
        db2.prospects.find? (fun q => q.email == some fromEmail) = some p →
        (p.stage = "new" ∨ p.stage = "contacted") →
        ∀ q, q ∈ (inboundReplyWebhook now2 fromEmail text subj db2).2.prospects →
          q.id = p.id → q.stage = "responded") := by
  refine ⟨?_, ?_, ?_, ?_⟩
  · by_cases h : isValidTransition p.stage target <;> simp [transitionTo, h]
  · intro h
    simp [transitionTo, h]
  · intro newStage db2 hne q hq hid
    simp only [responseUpdateProspectStage, if_neg hne, insertActivity,
      setProspectStage] at hq
    rcases mem_map_ite Prospect.id _ p.id _ q hq with ⟨v, _, _, rfl⟩ | ⟨_, hne2⟩
    · rfl
    · exact absurd hid hne2
  · intro now2 fromEmail text subj db2 hfind hstage q hq hid
    have : (p.stage = "new" ∨ p.stage = "contacted") = True := by simp [hstage]
    simp only [inboundReplyWebhook, hfind, this, if_true, queueTask,
      pauseSequencesOf, insertActivity, setProspectStage] at hq
    rcases mem_map_ite Prospect.id _ p.id _ q hq with ⟨v, _, _, rfl⟩ | ⟨_, hne⟩
    · rfl
    · exact absurd hid hne

/-! ## Properties of the drain query's sort -/

theorem mem_insertByCreated {t u : Task} {l : List Task} :
    u ∈ insertByCreated t l ↔ u = t ∨ u ∈ l := by
  induction l with
  | nil => simp [insertByCreated]
  | cons a as ih =>
    by_cases h : t.created_at ≤ a.created_at
    · simp [insertByCreated, h]
    · simp only [insertByCreated, if_neg h, List.mem_cons, ih]
      tauto

theorem mem_sortByCreated {u : Task} {l : List Task} :
    u ∈ sortByCreated l ↔ u ∈ l := by
  induction l with
  | nil => simp [sortByCreated]
  | cons a as ih => simp [sortByCreated, mem_insertByCreated, ih]

theorem sorted_insertByCreated {t : Task} {l : List Task}
    (h : l.Pairwise fun a b => a.created_at ≤ b.created_at) :
    (insertByCreated t l).Pairwise fun a b => a.created_at ≤ b.created_at := by
  induction l with
  | nil => simp [insertByCreated]
  | cons a as ih =>
    rcases List.pairwise_cons.mp h with ⟨ha, has⟩
    by_cases hle : t.created_at ≤ a.created_at
    · rw [insertByCreated, if_pos hle]
      refine List.pairwise_cons.mpr ⟨?_, h⟩
      intro b hb
      rcases List.mem_cons.mp hb with rfl | hb
      · exact hle
      · exact le_trans hle (ha b hb)
    · rw [insertByCreated, if_neg hle]
      refine List.pairwise_cons.mpr ⟨?_, ih has⟩
      intro b hb
      rcases mem_insertByCreated.mp hb with rfl | hb
      · omega
      · exact ha b hb

theorem sorted_sortByCreated (l : List Task) :
    (sortByCreated l).Pairwise fun a b => a.created_at ≤ b.created_at := by
  induction l with
  | nil => simp [sortByCreated]
  | cons a as ih => exact sorted_insertByCreated ih

theorem length_insertByCreated (t : Task) (l : List Task) :
    (insertByCreated t l).length = l.length + 1 := by
  induction l with
  | nil => rfl
  | cons a as ih =>
    by_cases h : t.created_at ≤ a.created_at <;>
      simp [insertByCreated, h, ih]

theorem length_sortByCreated (l : List Task) :
    (sortByCreated l).length = l.length := by
  induction l with
  | nil => rfl
  | cons a as ih => simp [sortByCreated, length_insertByCreated, ih]

/-- Only pending, due rows ever come out of the drain query. -/
theorem getPendingTasks_mem {db : Db} {now limit : Nat} {u : Task}
    (h : u ∈ getPendingTasks db now limit) :
    u ∈ db.tasks ∧ u.status = "pending" ∧ dueAt now u.scheduled_for = true := by
  have h2 := List.take_subset _ _ h
  have h3 := mem_sortByCreated.mp h2
  rcases List.mem_filter.mp h3 with ⟨hmem, hp⟩
  have hp2 : u.status = "pending" ∧ dueAt now u.scheduled_for = true := by
    simpa using hp
  exact ⟨hmem, hp2.1, hp2.2⟩

/-! ## One scheduler tick against a single always-failing task -/

/-- A tick on a store holding one pending, due task whose agent always
throws: the task is bumped through `processing` and back, so `attempts`
grows by two, and the snapshot's `attempts` decides between another
`pending` round and a terminal `failed`. -/
theorem tick_single_fail (msg : String) (now : Nat) (u : Task) (db : Db)
    (hdb : db.tasks = [u]) (hst : u.status = "pending")
    (hsched : u.scheduled_for = none) (hpay : u.payload = none) :
    (processPendingTasks (regFail u.agent_type msg) now db).1.tasks =
      [ if u.attempts < 3 then
          { u with status := "pending", result := none, error := some msg,
                   completed_at := none, attempts := u.attempts + 2 }
        else
          { u with status := "failed", result := none, error := some msg,
                   completed_at := some now, attempts := u.attempts + 2 } ] := by
  have hdrain : getPendingTasks db now 10 = [u] := by
    simp [getPendingTasks, hdb, hst, dueAt, hsched, sortByCreated, insertByCreated]
  simp only [processPendingTasks, hdrain, List.foldl_cons, List.foldl_nil]
  simp only [processTask, regFail, List.lookup, beq_self_eq_true, hpay,
    dispatchPayload]
  by_cases hatt : u.attempts < 3 <;>
    simp [hatt, updateTaskStatus, hdb, hpay]

/-- A tick on a store holding one task that is not `pending` changes
nothing: the drain query never returns it. -/
theorem tick_single_notpending (reg : Registry) (now : Nat) (u : Task) (db : Db)
    (hdb : db.tasks = [u]) (hst : u.status ≠ "pending") :
    (processPendingTasks reg now db).1 = db := by
  have hdrain : getPendingTasks db now 10 = [] := by
    simp [getPendingTasks, hdb, hst, sortByCreated]
  simp [processPendingTasks, hdrain]

/-- The exact task state after `n` ticks of consecutive agent failures,
starting from a fresh pending task: two retries with `attempts` 2 and 4,
then terminal `failed` with `attempts = 6`, stable from then on. -/
theorem failN_state (msg : String) (now : Nat) (t : Task) (db : Db)
    (hdb : db.tasks = [t]) (hst : t.status = "pending")
    (hsched : t.scheduled_for = none) (hpay : t.payload = none)
    (hatt : t.attempts = 0) :
    ∀ n, (iterateTicks (regFail t.agent_type msg) now n db).tasks =
      [ if n = 0 then t
        else if n = 1 then
          { t with status := "pending", result := none, error := some msg,
                   completed_at := none, attempts := 2 }
        else if n = 2 then
          { t with status := "pending", result := none, error := some msg,
                   completed_at := none, attempts := 4 }
        else
          { t with status := "failed", result := none, error := some msg,
                   completed_at := some now, attempts := 6 } ] := by
  intro n
  induction n with
  | zero => simpa [iterateTicks] using hdb
  | succ n ih =>
    rw [iterateTicks]
    by_cases h0 : n = 0
    · subst h0
      rw [tick_single_fail msg now t _ (by simpa using ih) hst hsched hpay]
      simp [hatt]
    · by_cases h1 : n = 1
      · subst h1
        rw [tick_single_fail msg now
          { t with status := "pending", result := none, error := some msg,
                   completed_at := none, attempts := 2 }
          _ (by simpa using ih) rfl hsched hpay]
        simp
      · by_cases h2 : n = 2
        · subst h2
          rw [tick_single_fail msg now
            { t with status := "pending", result := none, error := some msg,
                     completed_at := none, attempts := 4 }
            _ (by simpa using ih) rfl hsched hpay]
          simp
        · rw [tick_single_notpending _ now
            { t with status := "failed", result := none, error := some msg,
                     completed_at := some now, attempts := 6 } _
            (by simpa [h0, h1, h2] using ih) (by simp)]
          simp [h0, h1, h2] at ih
          simpa [h0, h1, h2] using ih

/-- C1 counterexample: the claim says that after `N` consecutive collaborator
failures `attempts = min(N, 3)`, but already after one failing dispatch the
counter reads 2 (`updateTaskStatus` increments it both when marking
`processing` and when recording the outcome), and `min(1, 3) = 1`. -/
theorem retry_counter_not_min_counterexample :
    ((iterateTicks (regFail "outreach" "boom") 9 1
        { emptyDb with tasks := [sampleTask 1 "outreach" 0 none] }).tasks.map
      Task.attempts) = [2]
    ∧ (2 : Nat) ≠ Nat.min 1 3 := ⟨by decide, by decide⟩

/-- C1 (amended): for a task whose agent execution throws on each dispatch,
after `N` consecutive failing ticks the `attempts` counter equals
`2·min(N, 3)` — each dispatch increments it twice, once at the `processing`
mark and once when the outcome is recorded — and the task's status is
`failed` exactly when `N ≥ 3` (the third dispatch sees the snapshot value 4
and stops retrying); otherwise it is reset to `pending` for retry. -/
theorem retry_attempts_double_min (msg : String) (now : Nat) (t : Task) (db : Db)
    (hdb : db.tasks = [t]) (hst : t.status = "pending")
    (hsched : t.scheduled_for = none) (hpay : t.payload = none)
    (hatt : t.attempts = 0) (n : Nat) :
    ((iterateTicks (regFail t.agent_type msg) now n db).tasks.map Task.attempts
       = [2 * Nat.min n 3])
    ∧ ((iterateTicks (regFail t.agent_type msg) now n db).tasks.map Task.status
       = [if 3 ≤ n then "failed" else "pending"]) := by
  rw [failN_state msg now t db hdb hst hsched hpay hatt n]
  rcases n with _ | _ | _ | m
  · simp [hatt, hst]
  · simp
  · simp [Nat.min_def]
  · have hmin : Nat.min (m + 3) 3 = 3 := min_eq_right (by omega)
    have h3 : 3 ≤ m + 3 := by omega
    simp [hmin, h3]

/-- Witness for C1 (amended): a concrete fresh task against an
always-throwing agent ends after 3 ticks with `attempts = 6 = 2·min(3,3)`
and status `failed`. -/
theorem retry_attempts_double_min_witness :
    ((iterateTicks (regFail "outreach" "boom") 9 3
        { emptyDb with tasks := [sampleTask 1 "outreach" 0 none] }).tasks.map
      Task.attempts) = [2 * Nat.min 3 3]
    ∧ ((iterateTicks (regFail "outreach" "boom") 9 3
        { emptyDb with tasks := [sampleTask 1 "outreach" 0 none] }).tasks.map
      Task.status) = [if 3 ≤ 3 then "failed" else "pending"] :=
  retry_attempts_double_min "boom" 9 (sampleTask 1 "outreach" 0 none)
    { emptyDb with tasks := [sampleTask 1 "outreach" 0 none] }
    rfl rfl rfl rfl rfl 3

/-- C8: dispatching a task whose `agent_type` has no registered agent marks
it `failed` at once with a descriptive error, leaves `attempts = 1` (for a
fresh task), stamps `completed_at`, and — because the drain query only
returns `pending` rows — the task can never be drained again, so it is never
retried. -/
theorem unknown_agent_fails_immediately (reg : Registry) (now : Nat) (t : Task)
    (db : Db)
    (hreg : reg.lookup t.agent_type = none)
    (hfind : findTask db t.id = some t)
    (hatt : t.attempts = 0) :
    findTask (processTask reg now t db) t.id =
      some { t with
        status := "failed", result := none,
        error := some ("No agent for type: " ++ t.agent_type),
        completed_at := some now, attempts := 1 }
    ∧ ∀ (db2 : Db) (now2 limit : Nat) (u : Task),
        u ∈ getPendingTasks db2 now2 limit → u.status = "pending" := by
  constructor
  · have hPT : processTask reg now t db =
        updateTaskStatus now t.id "failed" none
          (some ("No agent for type: " ++ t.agent_type)) db := by
      simp [processTask, hreg]
    rw [hPT]
    simp only [updateTaskStatus, findTask]
    have h2 := find?_map_ite Task.id db.tasks t.id
      (fun u => { u with
        status := "failed",
        result := (none : Option Json).map Json.stringify,
        error := some ("No agent for type: " ++ t.agent_type),
        completed_at :=
          if ("failed" : String) = "completed" ∨ ("failed" : String) = "failed"
          then some now else none,
        attempts := u.attempts + 1 })
      (fun u => rfl) t hfind
    simpa [hatt] using h2
  · intro db2 now2 limit u hu
    exact (getPendingTasks_mem hu).2.1

/-- Witness for C8: a concrete task for agent type `unknown_agent` is failed
on first dispatch with one attempt recorded. -/
theorem unknown_agent_fails_immediately_witness :
    findTask (processTask [] 4 (sampleTask 1 "unknown_agent" 0 none)
        { emptyDb with tasks := [sampleTask 1 "unknown_agent" 0 none] }) 1 =
      some { sampleTask 1 "unknown_agent" 0 none with
        status := "failed", result := none,
        error := some "No agent for type: unknown_agent",
        completed_at := some 4, attempts := 1 } :=
  (unknown_agent_fails_immediately [] 4 (sampleTask 1 "unknown_agent" 0 none)
    { emptyDb with tasks := [sampleTask 1 "unknown_agent" 0 none] }
    rfl (by decide) rfl).1

/-- C7 counterexample: the claim promises that a future-scheduled task is
drained by the first `drainDue` at or after its time, but the row limit can
starve it: at `now = 5` a task scheduled for 5 is due, yet a drain with
`limit = 1` returns only the earlier-created task. -/
theorem drainDue_limit_starves_due_task :
    dueAt 5 (sampleTask 2 "outreach" 1 (some 5)).scheduled_for = true
    ∧ getPendingTasks
        { emptyDb with tasks := [sampleTask 1 "outreach" 0 none,
                                 sampleTask 2 "outreach" 1 (some 5)] } 5 1 =
      [sampleTask 1 "outreach" 0 none]
    ∧ sampleTask 2 "outreach" 1 (some 5) ∉ getPendingTasks
        { emptyDb with tasks := [sampleTask 1 "outreach" 0 none,
                                 sampleTask 2 "outreach" 1 (some 5)] } 5 1 := by
  refine ⟨by decide, by decide, by decide⟩

/-- C7 (amended): `getPendingTasks` returns only pending tasks whose
`scheduled_for` is NULL or has arrived, in ascending creation order, at most
`limit` of them; a future-scheduled task is never returned before its time,
and a due pending task is returned by a drain whenever the due pending rows
do not outnumber `limit` (otherwise it waits for a later drain — creation
order decides who goes first). -/
theorem getPendingTasks_spec (db : Db) (now limit : Nat) :
    (∀ u ∈ getPendingTasks db now limit,
        u ∈ db.tasks ∧ u.status = "pending" ∧ dueAt now u.scheduled_for = true)
    ∧ (getPendingTasks db now limit).Pairwise (fun a b => a.created_at ≤ b.created_at)
    ∧ (getPendingTasks db now limit).length ≤ limit
    ∧ (∀ u ∈ db.tasks, ∀ s, u.scheduled_for = some s → now < s →
        u ∉ getPendingTasks db now limit)
    ∧ ((db.tasks.filter fun t =>
          t.status == "pending" && dueAt now t.scheduled_for).length ≤ limit →
        ∀ u ∈ db.tasks, u.status = "pending" → dueAt now u.scheduled_for = true →
          u ∈ getPendingTasks db now limit) := by
  refine ⟨fun u hu => getPendingTasks_mem hu, ?_, ?_, ?_, ?_⟩
  · exact (sorted_sortByCreated _).sublist (List.take_sublist _ _)
  · simp [getPendingTasks]

  · intro u _ s hs hlate hu
    have hdue := (getPendingTasks_mem hu).2.2
    rw [hs] at hdue
    simp only [dueAt, decide_eq_true_eq] at hdue
    omega
  · intro hroom u hmem hst hdue
    have hfil : u ∈ db.tasks.filter fun t =>
        t.status == "pending" && dueAt now t.scheduled_for :=
      List.mem_filter.mpr ⟨hmem, by simp [hst, hdue]⟩
    have hsorted : u ∈ sortByCreated (db.tasks.filter fun t =>
        t.status == "pending" && dueAt now t.scheduled_for) :=
      mem_sortByCreated.mpr hfil
    have hlen : (sortByCreated (db.tasks.filter fun t =>
        t.status == "pending" && dueAt now t.scheduled_for)).length ≤ limit := by
      rwa [length_sortByCreated]
    rw [getPendingTasks, List.take_of_length_le hlen]
    exact hsorted

/-- Witness for C7 (amended): with room in the batch, a task scheduled for
time 5 is drained at `now = 5`. -/
theorem getPendingTasks_spec_witness :
    sampleTask 1 "outreach" 0 (some 5) ∈ getPendingTasks
      { emptyDb with tasks := [sampleTask 1 "outreach" 0 (some 5)] } 5 10 :=
  (getPendingTasks_spec
    { emptyDb with tasks := [sampleTask 1 "outreach" 0 (some 5)] } 5 10).2.2.2.2
    (by decide) _ (by decide) (by decide) (by decide)

/-! ## Side effects of entering `lost` -/

theorem automation_false_after_disable (db : Db) (pid : Nat) :
    ∀ q ∈ (disableAutomation db pid).prospects, q.id = pid →
      q.automation_enabled = false := by
  intro q hq hid
  rcases mem_map_ite Prospect.id db.prospects pid _ q hq with ⟨v, _, _, rfl⟩ | ⟨_, hne⟩
  · rfl
  · exact absurd hid hne

theorem paused_after_pause (db : Db) (pid : Nat) :
    ∀ s ∈ (pauseSequencesOf db pid).sequences, s.prospect_id = pid →
      s.is_paused = true := by
  intro s hs hid
  rcases mem_map_ite FollowUpSequence.prospect_id db.sequences pid _ s hs with
    ⟨v, _, _, rfl⟩ | ⟨_, hne⟩
  · rfl
  · exact absurd hid hne

/-- `setProspectStage` does not affect the automation flags. -/
theorem setProspectStage_automation (db : Db) (pid : Nat) (st : String) :
    (setProspectStage db pid st).prospects.map Prospect.automation_enabled =
      db.prospects.map Prospect.automation_enabled := by
  rw [setProspectStage, List.map_map]
  refine List.map_congr_left fun u _ => ?_
  by_cases h : u.id = pid <;> simp [h]

/-! ## The `sequence_step ≤ max_steps` invariant -/

/-- In a list with pairwise-distinct `prospect_id`s, the row `find?`
returns for a given prospect is the only row for it. -/
theorem find?_sequence_unique {l : List FollowUpSequence} {pid : Nat}
    {s : FollowUpSequence}
    (hu : l.Pairwise fun a b => a.prospect_id ≠ b.prospect_id)
    (hf : l.find? (fun v => v.prospect_id == pid) = some s) :
    ∀ v ∈ l, v.prospect_id = pid → v = s := by
  induction l with
  | nil => simp at hf
  | cons a l ih =>
    rcases List.pairwise_cons.mp hu with ⟨ha, hl⟩
    intro v hv hvp
    by_cases hap : a.prospect_id = pid
    · rw [List.find?_cons_of_pos _ (by simpa using hap)] at hf
      injection hf with hf
      subst hf
      rcases List.mem_cons.mp hv with rfl | hv
      · rfl
      · exact absurd hvp (by rw [← hap]; exact fun h => (ha v hv) h.symm)
    · rw [List.find?_cons_of_neg _ (by simpa using hap)] at hf
      rcases List.mem_cons.mp hv with rfl | hv
      · exact absurd hvp hap
      · exact ih hl hf v hv hvp

/-- With the UNIQUE constraint on `prospect_id`, the row `findSequence`
returns is the only row for that prospect. -/
theorem findSequence_unique {db : Db} {pid : Nat} {s : FollowUpSequence}
    (hu : db.sequences.Pairwise fun a b => a.prospect_id ≠ b.prospect_id)
    (hf : findSequence db pid = some s) :
    ∀ v ∈ db.sequences, v.prospect_id = pid → v = s :=
  find?_sequence_unique hu hf

theorem pause_seqInv {db : Db} {pid : Nat}
    (hinv : ∀ s ∈ db.sequences, s.sequence_step ≤ s.max_steps) :
    ∀ s ∈ (pauseSequencesOf db pid).sequences, s.sequence_step ≤ s.max_steps := by
  intro s hs
  rcases mem_map_ite FollowUpSequence.prospect_id db.sequences pid _ s hs with
    ⟨v, hv, _, rfl⟩ | ⟨hv, _⟩
  · exact hinv v hv
  · exact hinv s hv

theorem reschedule_seqInv {db : Db} {pid next : Nat}
    (hinv : ∀ s ∈ db.sequences, s.sequence_step ≤ s.max_steps) :
    ∀ s ∈ (rescheduleSequence db pid next).sequences,
      s.sequence_step ≤ s.max_steps := by
  intro s hs
  rcases mem_map_ite FollowUpSequence.prospect_id db.sequences pid _ s hs with
    ⟨v, hv, _, rfl⟩ | ⟨hv, _⟩
  · exact hinv v hv
  · exact hinv s hv

theorem updateSequenceProgress_seqInv {db : Db} {pid stepN now next : Nat}
    (hinv : ∀ s ∈ db.sequences, s.sequence_step ≤ s.max_steps)
    (hstep : ∀ v ∈ db.sequences, v.prospect_id = pid → stepN ≤ v.max_steps) :
    ∀ s ∈ (updateSequenceProgress db pid stepN now next).sequences,
      s.sequence_step ≤ s.max_steps := by
  intro s hs
  rcases mem_map_ite FollowUpSequence.prospect_id db.sequences pid _ s hs with
    ⟨v, hv, hvp, rfl⟩ | ⟨hv, _⟩
  · exact hstep v hv hvp
  · exact hinv s hv

theorem handleStageEffects_seqInv (now : Nat) (p : Prospect) (newStage : String)
    {db : Db} (hinv : ∀ s ∈ db.sequences, s.sequence_step ≤ s.max_steps) :
    ∀ s ∈ (handleStageEffects now p newStage db).sequences,
      s.sequence_step ≤ s.max_steps := by
  rw [handleStageEffects]
  split_ifs
  · cases hfs : findSequence db p.id with
    | some u => exact hinv
    | none =>
      simp only [hfs]
      intro s hs
      rcases List.mem_append.mp hs with h | h
      · exact hinv s h
      · rcases List.mem_singleton.mp h with rfl
        exact Nat.zero_le _
  · exact pause_seqInv hinv
  · exact hinv
  · exact hinv
  · exact pause_seqInv hinv
  · exact hinv

theorem transitionTo_seqInv (now : Nat) (p : Prospect) (target : String)
    (reason : Option String) {db : Db}
    (hinv : ∀ s ∈ db.sequences, s.sequence_step ≤ s.max_steps) :
    ∀ s ∈ (transitionTo now p target reason db).2.sequences,
      s.sequence_step ≤ s.max_steps := by
  unfold transitionTo
  by_cases hv : isValidTransition p.stage target
  · simp only [hv, Bool.not_true, reduceIte]
    exact handleStageEffects_seqInv now p target hinv
  · simp only [Bool.not_eq_true] at hv
    simp only [hv, Bool.not_false, reduceIte]
    exact hinv

theorem followupSendEmail_sequences (env : Collab) (p : Prospect)
    (subj body : String) (cid now : Nat) (db : Db) :
    (followupSendEmail env p subj body cid now db).2.sequences = db.sequences := by
  rcases henv : env.emailSend with msg | r <;>
    · simp only [followupSendEmail, henv]
      split_ifs <;> rfl

theorem outreachSendEmail_sequences (env : Collab) (p : Prospect)
    (subj body : String) (cid now : Nat) (db : Db) :
    (outreachSendEmail env p subj body cid now db).2.sequences = db.sequences := by
  rcases henv : env.emailSend with msg | r <;>
    · simp only [outreachSendEmail, henv]
      split_ifs <;> rfl

theorem responseUpdateProspectStage_sequences (p : Prospect) (st : String) (db : Db) :
    (responseUpdateProspectStage p st db).sequences = db.sequences := by
  unfold responseUpdateProspectStage
  split_ifs <;> rfl

theorem initializeFollowUpSequence_seqInv {db : Db} (now pid : Nat)
    (hinv : ∀ s ∈ db.sequences, s.sequence_step ≤ s.max_steps) :
    ∀ s ∈ (initializeFollowUpSequence now db pid).sequences,
      s.sequence_step ≤ s.max_steps := by
  intro s hs
  rcases List.mem_append.mp hs with h | h
  · exact hinv s (List.mem_filter.mp h).1
  · rcases List.mem_singleton.mp h with rfl
    exact Nat.zero_le _

theorem outreachFinish_seqInv (env : Collab) (now pid : Nat)
    (payload : OutreachPayload) (p : Prospect) (subj body : String) {db : Db}
    (hinv : ∀ s ∈ db.sequences, s.sequence_step ≤ s.max_steps) :
    ∀ s ∈ (outreachFinish env now pid payload p subj body db).2.sequences,
      s.sequence_step ≤ s.max_steps := by
  unfold outreachFinish
  simp only
  split_ifs
  · exact initializeFollowUpSequence_seqInv now pid
      (by rw [outreachSendEmail_sequences]; exact hinv)
  · rw [outreachSendEmail_sequences]
    exact hinv

theorem followupExecute_seqInv (env : Collab) (now pid : Nat) {db : Db}
    (o : FollowupOutcome) (db' : Db)
    (hrun : followupExecute env now pid db = .ok (o, db'))
    (hu : db.sequences.Pairwise fun a b => a.prospect_id ≠ b.prospect_id)
    (hinv : ∀ s ∈ db.sequences, s.sequence_step ≤ s.max_steps) :
    ∀ s ∈ db'.sequences, s.sequence_step ≤ s.max_steps := by
  unfold followupExecute at hrun
  cases hfp : findProspect db pid with
  | none => rw [hfp] at hrun; exact absurd hrun (by simp)
  | some p =>
    rw [hfp] at hrun
    by_cases hauto : p.automation_enabled
    case neg => simp [hauto] at hrun; rw [← hrun.2]; exact hinv
    by_cases hstage : p.stage = "contacted"
    case neg => simp [hauto, hstage] at hrun; rw [← hrun.2]; exact hinv
    cases hfs : findSequence db pid with
    | none =>
      simp [hauto, hstage, hfs] at hrun; rw [← hrun.2]; exact hinv
    | some seq =>
      by_cases hpause : seq.is_paused
      case pos =>
        simp [hauto, hstage, hfs, hpause] at hrun; rw [← hrun.2]; exact hinv
      by_cases hmax : seq.max_steps ≤ seq.sequence_step
      case pos =>
        simp [hauto, hstage, hfs, hpause, hmax] at hrun
        rw [← hrun.2]
        intro s hs
        exact hinv s hs
      rcases hbody : env.llmFollowUpBody with e | body
      · simp [hauto, hstage, hfs, hpause, hmax, hbody] at hrun
      rcases hsubj : env.llmSubjectLine with e | subj
      · simp [hauto, hstage, hfs, hpause, hmax, hbody, hsubj] at hrun
      simp only [hauto, hstage, hfs, hpause, hmax, hbody, hsubj,
        Bool.not_true, reduceIte, ne_eq, not_true_eq_false,
        Except.ok.injEq, Prod.mk.injEq] at hrun
      rcases hrun with ⟨-, rfl⟩
      split_ifs
      · refine updateSequenceProgress_seqInv ?_ ?_
        · rw [followupSendEmail_sequences]
          exact hinv
        · rw [followupSendEmail_sequences]
          intro v hv hvp
          have := findSequence_unique hu hfs v hv hvp
          subst this
          omega
      · rw [followupSendEmail_sequences]
        exact hinv

theorem outreachExecute_seqInv (env : Collab) (now pid : Nat)
    (payload : OutreachPayload) {db : Db} (o : OutreachOutcome) (db' : Db)
    (hrun : outreachExecute env now pid payload db = .ok (o, db'))
    (hinv : ∀ s ∈ db.sequences, s.sequence_step ≤ s.max_steps) :
    ∀ s ∈ db'.sequences, s.sequence_step ≤ s.max_steps := by
  unfold outreachExecute at hrun
  cases hfp : findProspect db pid with
  | none => rw [hfp] at hrun; exact absurd hrun (by simp)
  | some p =>
    rw [hfp] at hrun
    by_cases hauto : p.automation_enabled
    case neg => simp [hauto] at hrun; rw [← hrun.2]; exact hinv
    by_cases hglob : getConfig db "auto_outreach" "true" = "true"
    case neg =>
      simp [hauto, hglob] at hrun; rw [← hrun.2]; exact hinv
    by_cases hcamp : 0 < (db.campaigns.filter fun c => c.prospect_id == pid).length
    case pos =>
      simp [hauto, hglob, hcamp] at hrun; rw [← hrun.2]; exact hinv
    cases htid : payload.templateId with
    | none =>
      rcases hbody : env.llmOutreachBody with e | aiBody
      · simp [hauto, hglob, hcamp, htid, hbody] at hrun
      rcases hsubj : env.llmSubjectLine with e2 | aiSubj
      · simp [hauto, hglob, hcamp, htid, hbody, hsubj] at hrun
      simp [hauto, hglob, hcamp, htid, hbody, hsubj] at hrun
      rcases hrun with ⟨-, rfl⟩
      exact outreachFinish_seqInv env now pid payload p aiSubj aiBody hinv
    | some tid =>
      cases htpl : findTemplate db tid with
      | none =>
        rcases hbody : env.llmOutreachBody with e | aiBody
        · simp [hauto, hglob, hcamp, htid, htpl, hbody] at hrun
        rcases hsubj : env.llmSubjectLine with e2 | aiSubj
        · simp [hauto, hglob, hcamp, htid, htpl, hbody, hsubj] at hrun
        simp [hauto, hglob, hcamp, htid, htpl, hbody, hsubj] at hrun
        rcases hrun with ⟨-, rfl⟩
        exact outreachFinish_seqInv env now pid payload p aiSubj aiBody hinv
      | some tpl =>
        by_cases hcond : replaceVariables tpl.body p = "" ∨ payload.useAI ≠ some false
        · rcases hbody : env.llmOutreachBody with e | aiBody
          · simp [hauto, hglob, hcamp, htid, htpl, hcond, hbody] at hrun
          rcases hsubj : env.llmSubjectLine with e2 | aiSubj
          · simp [hauto, hglob, hcamp, htid, htpl, hcond, hbody, hsubj] at hrun
          simp [hauto, hglob, hcamp, htid, htpl, hcond, hbody, hsubj] at hrun
          rcases hrun with ⟨-, rfl⟩
          exact outreachFinish_seqInv env now pid payload p aiSubj aiBody hinv
        · simp [hauto, hglob, hcamp, htid, htpl, hcond] at hrun
          rcases hrun with ⟨-, rfl⟩
          exact outreachFinish_seqInv env now pid payload p
            (replaceVariables (jsStr tpl.subject) p) (replaceVariables tpl.body p) hinv

theorem responseHandleClassification_seqInv (now : Nat) (p : Prospect)
    (cls : Classification) {db : Db}
    (hinv : ∀ s ∈ db.sequences, s.sequence_step ≤ s.max_steps) :
    ∀ s ∈ (responseHandleClassification now p cls db).sequences,
      s.sequence_step ≤ s.max_steps := by
  unfold responseHandleClassification
  split_ifs
  · have hseq : ∀ (db2 : Db),
        ((queueTask now "stage_manager" p.id
          (Json.obj [("classification", classificationToJson cls),
                     ("suggestedStage", Json.str "responded")]) none db2).2).sequences
        = db2.sequences := fun db2 => rfl
    rw [hseq]
    show ∀ s ∈ (insertNotification (responseUpdateProspectStage p "responded" db) _).sequences, _
    show ∀ s ∈ (responseUpdateProspectStage p "responded" db).sequences, _
    rw [responseUpdateProspectStage_sequences]
    exact hinv
  · refine pause_seqInv ?_
    show ∀ s ∈ (responseUpdateProspectStage p "meeting_scheduled" db).sequences, _
    rw [responseUpdateProspectStage_sequences]
    exact hinv
  · show ∀ s ∈ (pauseSequencesOf (disableAutomation
      (responseUpdateProspectStage p "lost" db) p.id) p.id).sequences, _
    refine pause_seqInv ?_
    show ∀ s ∈ (responseUpdateProspectStage p "lost" db).sequences, _
    rw [responseUpdateProspectStage_sequences]
    exact hinv
  · refine pause_seqInv ?_
    show ∀ s ∈ (responseUpdateProspectStage p "responded" db).sequences, _
    rw [responseUpdateProspectStage_sequences]
    exact hinv
  · exact reschedule_seqInv hinv
  · exact pause_seqInv hinv

theorem inboundReplyWebhook_seqInv (now : Nat) (fromEmail text subj : String)
    {db : Db} (hinv : ∀ s ∈ db.sequences, s.sequence_step ≤ s.max_steps) :
    ∀ s ∈ (inboundReplyWebhook now fromEmail text subj db).2.sequences,
      s.sequence_step ≤ s.max_steps := by
  unfold inboundReplyWebhook
  cases hfp : db.prospects.find? (fun p => p.email == some fromEmail) with
  | none => exact hinv
  | some p =>
    show ∀ s ∈ (pauseSequencesOf _ p.id).sequences, _
    refine pause_seqInv ?_
    split_ifs <;> exact hinv

/-- C5 counterexample: the claim's second half omits the automation guard —
a prospect in stage `contacted`, with an unpaused sequence at
`sequence_step = max_steps = 3` but `automation_enabled = false`, is skipped
by the FollowUp agent and its stage stays `contacted` instead of becoming
`lost`. -/
theorem followup_maxsteps_needs_automation_counterexample :
    ((followupExecute (sampleCollab true) 0 1
        { emptyDb with prospects := [sampleProspect 1 (some "a@b.c") "contacted" false],
                       sequences := [sampleSequence 1 3 3 false] }).toOption.map
      (fun r => (r.1, r.2.prospects.map Prospect.stage))) =
      some (.skipped "Automation disabled for this prospect", ["contacted"])
    ∧ (sampleSequence 1 3 3 false).is_paused = false
    ∧ (sampleSequence 1 3 3 false).max_steps ≤ (sampleSequence 1 3 3 false).sequence_step
    ∧ (sampleProspect 1 (some "a@b.c") "contacted" false).stage = "contacted"
    ∧ ("contacted" : String) ≠ "lost" := by
  refine ⟨by decide, by decide, by decide, by decide, by decide⟩

/-- C5 (amended): the bound `sequence_step ≤ max_steps` is preserved by
every embedded operation that can touch `follow_up_sequences` (both agent
executions, stage transitions, response classification handling, and the
inbound webhook), given the UNIQUE constraint on `prospect_id`; and a
FollowUp execution on a prospect **with automation enabled**, in stage
`contacted`, with an unpaused sequence at `sequence_step ≥ max_steps`,
creates no campaign and writes stage `lost` directly. -/
theorem sequence_step_bounded (env : Collab) (now pid : Nat) (db : Db)
    (hu : db.sequences.Pairwise fun a b => a.prospect_id ≠ b.prospect_id)
    (hinv : ∀ s ∈ db.sequences, s.sequence_step ≤ s.max_steps) :
    (∀ (o : FollowupOutcome) (db2 : Db), followupExecute env now pid db = .ok (o, db2) →
        ∀ s ∈ db2.sequences, s.sequence_step ≤ s.max_steps)
    ∧ (∀ (payload : OutreachPayload) (o : OutreachOutcome) (db2 : Db),
        outreachExecute env now pid payload db = .ok (o, db2) →
        ∀ s ∈ db2.sequences, s.sequence_step ≤ s.max_steps)
    ∧ (∀ (p : Prospect) (target : String) (reason : Option String),
        ∀ s ∈ (transitionTo now p target reason db).2.sequences,
          s.sequence_step ≤ s.max_steps)
    ∧ (∀ (p : Prospect) (cls : Classification),
        ∀ s ∈ (responseHandleClassification now p cls db).sequences,
          s.sequence_step ≤ s.max_steps)
    ∧ (∀ (fromEmail text subj : String),
        ∀ s ∈ (inboundReplyWebhook now fromEmail text subj db).2.sequences,
          s.sequence_step ≤ s.max_steps)
    ∧ (∀ (p : Prospect) (s : FollowUpSequence),
        findProspect db pid = some p → p.automation_enabled = true →
        p.stage = "contacted" → findSequence db pid = some s →
        s.is_paused = false → s.max_steps ≤ s.sequence_step →
        ∃ db2, followupExecute env now pid db =
            .ok (.maxReached "Max follow-ups reached, moved to lost", db2)
          ∧ db2.campaigns = db.campaigns
          ∧ ∀ q ∈ db2.prospects, q.id = pid → q.stage = "lost") := by
  refine ⟨fun o db2 h => followupExecute_seqInv env now pid o db2 h hu hinv,
    fun payload o db2 h => outreachExecute_seqInv env now pid payload o db2 h hinv,
    fun p target reason => transitionTo_seqInv now p target reason hinv,
    fun p cls => responseHandleClassification_seqInv now p cls hinv,
    fun fromEmail text subj => inboundReplyWebhook_seqInv now fromEmail text subj hinv,
    ?_⟩
  intro p s hfp hauto hstage hfs hpause hmax
  refine ⟨insertActivity (setProspectStage db pid "lost") pid "stage_change"
    "Moved to lost - max follow-ups reached with no response", ?_, rfl, ?_⟩
  · simp [followupExecute, hfp, hauto, hstage, hfs, hpause, hmax]
  · intro q hq hid
    rcases mem_map_ite Prospect.id db.prospects pid _ q hq with ⟨v, _, _, rfl⟩ | ⟨_, hne⟩
    · rfl
    · exact absurd hid hne

/-- Witness for C5 (amended): on a concrete store the FollowUp send path
advances the sequence without exceeding `max_steps`, and the max-steps path
moves the prospect to `lost` without creating a campaign. -/
theorem sequence_step_bounded_witness :
    ∃ db2, followupExecute (sampleCollab true) 0 1
        { emptyDb with prospects := [sampleProspect 1 (some "a@b.c") "contacted" true],
                       sequences := [sampleSequence 1 3 3 false] } =
        .ok (.maxReached "Max follow-ups reached, moved to lost", db2)
      ∧ db2.campaigns =
          ({ emptyDb with prospects := [sampleProspect 1 (some "a@b.c") "contacted" true],
                          sequences := [sampleSequence 1 3 3 false] } : Db).campaigns
      ∧ ∀ q ∈ db2.prospects, q.id = 1 → q.stage = "lost" :=
  (sequence_step_bounded (sampleCollab true) 0 1
    { emptyDb with prospects := [sampleProspect 1 (some "a@b.c") "contacted" true],
                   sequences := [sampleSequence 1 3 3 false] }
    (by decide) (by decide)).2.2.2.2.2
    (sampleProspect 1 (some "a@b.c") "contacted" true) (sampleSequence 1 3 3 false)
    (by decide) (by decide) (by decide) (by decide) (by decide) (by decide)

/-- C6 counterexample: the FollowUp agent's max-steps path moves the
prospect to `lost` but leaves `automation_enabled = true` and the sequence
unpaused, so not every operation that enters `lost` disables automation and
pauses the sequence. -/
theorem followup_lost_keeps_automation_counterexample :
    (followupExecute (sampleCollab true) 0 1
        { emptyDb with prospects := [sampleProspect 1 (some "a@b.c") "contacted" true],
                       sequences := [sampleSequence 1 3 3 false] }).toOption.map
      (fun r =>
        (r.1,
         r.2.prospects.map Prospect.stage,
         r.2.prospects.map Prospect.automation_enabled,
         r.2.sequences.map FollowUpSequence.is_paused)) =
    some (.maxReached "Max follow-ups reached, moved to lost",
          ["lost"], [true], [false]) := by
  decide

/-- C6 (amended): entering `lost` through `StageAgent.transitionTo` or
through the ResponseClassifier's NOT_INTERESTED handling sets the prospect's
`automation_enabled` to false and pauses the prospect's follow-up sequence
as part of the same write; the FollowUp agent's max-steps path is the
exception — it writes `stage = 'lost'` (plus an activity) directly and
leaves the automation flags and the sequences untouched. -/
theorem lost_side_effects_except_followup (now : Nat) (p : Prospect)
    (reason : Option String) (cls : Classification) (db : Db)
    (hv : isValidTransition p.stage "lost" = true)
    (hcls : cls.classification = "NOT_INTERESTED") :
    (∀ q ∈ (transitionTo now p "lost" reason db).2.prospects, q.id = p.id →
        q.automation_enabled = false)
    ∧ (∀ s ∈ (transitionTo now p "lost" reason db).2.sequences, s.prospect_id = p.id →
        s.is_paused = true)
    ∧ (∀ q ∈ (responseHandleClassification now p cls db).prospects, q.id = p.id →
        q.automation_enabled = false)
    ∧ (∀ s ∈ (responseHandleClassification now p cls db).sequences, s.prospect_id = p.id →
        s.is_paused = true)
    ∧ (∀ (pid : Nat) (p2 : Prospect) (s : FollowUpSequence) (db2 : Db) (env : Collab),
        findProspect db2 pid = some p2 → p2.automation_enabled = true →
        p2.stage = "contacted" → findSequence db2 pid = some s →
        s.is_paused = false → s.max_steps ≤ s.sequence_step →
        ∃ db3, followupExecute env now pid db2 =
            .ok (.maxReached "Max follow-ups reached, moved to lost", db3)
          ∧ db3.prospects.map Prospect.automation_enabled =
              db2.prospects.map Prospect.automation_enabled
          ∧ db3.sequences = db2.sequences) := by
  have htrans : (transitionTo now p "lost" reason db).2 =
      pauseSequencesOf
        (disableAutomation
          (insertActivity (setProspectStage db p.id "lost") p.id "stage_change"
            ((transitionTo now p "lost" reason db).1.message)) p.id) p.id := by
    rcases reason with _ | r <;> simp [transitionTo, hv, handleStageEffects]
  refine ⟨?_, ?_, ?_, ?_, ?_⟩
  · rw [htrans]
    intro q hq hid
    exact automation_false_after_disable _ p.id q hq hid
  · rw [htrans]
    exact paused_after_pause _ p.id
  · intro q hq hid
    rw [responseHandleClassification] at hq
    rw [hcls] at hq
    simp only [reduceIte, responseCreateNotification, insertNotification] at hq
    exact automation_false_after_disable _ p.id q hq hid
  · intro s hs hid
    rw [responseHandleClassification] at hs
    rw [hcls] at hs
    simp only [reduceIte, responseCreateNotification, insertNotification] at hs
    exact paused_after_pause _ p.id s hs hid
  · intro pid p2 s db2 env hfp hauto hstage hseq hpause hmax
    refine ⟨insertActivity (setProspectStage db2 pid "lost") pid "stage_change"
      "Moved to lost - max follow-ups reached with no response", ?_, ?_, rfl⟩
    · simp [followupExecute, hfp, hauto, hstage, hseq, hpause, hmax]
    · simpa [insertActivity] using setProspectStage_automation db2 pid "lost"

/-- Witness for C6 (amended): concrete instances — a `contacted` prospect
transitioned to `lost` ends with automation off and its sequence paused. -/
theorem lost_side_effects_except_followup_witness :
    (∀ q ∈ (transitionTo 0 (sampleProspect 1 none "contacted" true) "lost" none
        { emptyDb with prospects := [sampleProspect 1 none "contacted" true],
                       sequences := [sampleSequence 1 0 3 false] }).2.prospects,
      q.id = 1 → q.automation_enabled = false)
    ∧ (∀ s ∈ (transitionTo 0 (sampleProspect 1 none "contacted" true) "lost" none
        { emptyDb with prospects := [sampleProspect 1 none "contacted" true],
                       sequences := [sampleSequence 1 0 3 false] }).2.sequences,
      s.prospect_id = 1 → s.is_paused = true) := by
  have h := lost_side_effects_except_followup 0
    (sampleProspect 1 none "contacted" true) none
    { classification := "NOT_INTERESTED", confidence := 80, summary := "no" }
    { emptyDb with prospects := [sampleProspect 1 none "contacted" true],
                   sequences := [sampleSequence 1 0 3 false] }
    (by decide) rfl
  exact ⟨h.1, h.2.1⟩

/-! ## The draft-downgrade path of the send helpers -/

/-- A freshly appended campaign row (its id unused before) is what
`findCampaign` sees. -/
theorem findCampaign_appended {db1 : Db} {old : List Campaign} {newC : Campaign}
    (h : db1.campaigns = old ++ [newC]) (hids : ∀ c ∈ old, c.id ≠ newC.id) :
    findCampaign db1 newC.id = some newC := by
  rw [findCampaign, h, List.find?_append]
  rw [List.find?_eq_none.mpr (fun c hc => by simp [hids c hc])]
  simp

/-- A status downgrade is visible through `findCampaign`. -/
theorem findCampaign_setStatus {db1 : Db} {cid : Nat} {c : Campaign} (st : String)
    (hc : findCampaign db1 cid = some c) :
    findCampaign (setCampaignStatus db1 cid st) cid = some { c with status := st } := by
  rw [setCampaignStatus, findCampaign]
  exact find?_map_ite Campaign.id db1.campaigns cid
    (fun v => { v with status := st }) (fun v => rfl) c hc

/-- With no address or an unready delivery service, the FollowUp send helper
downgrades the campaign to `draft` and reports failure without throwing. -/
theorem followupSendEmail_draft (env : Collab) (p : Prospect)
    (subj body : String) (cid now : Nat) (db : Db)
    (hblank : isBlank p.email = true ∨ env.emailReady = false) :
    ∃ err, followupSendEmail env p subj body cid now db =
      ({ sent := false, error := some err, messageId := none },
       setCampaignStatus db cid "draft") := by
  by_cases hb : isBlank p.email
  · exact ⟨"No email address", by simp [followupSendEmail, hb]⟩
  · rcases hblank with hb2 | hr
    · exact absurd hb2 hb
    · exact ⟨"Email service not configured", by simp [followupSendEmail, hb, hr]⟩

/-- The Outreach analogue (the no-address branch also logs an activity, which
leaves the campaigns table untouched). -/
theorem outreachSendEmail_draft (env : Collab) (p : Prospect)
    (subj body : String) (cid now : Nat) (db : Db)
    (hblank : isBlank p.email = true ∨ env.emailReady = false) :
    ∃ err db2, outreachSendEmail env p subj body cid now db =
      ({ sent := false, error := some err, messageId := none }, db2)
      ∧ db2.campaigns = (setCampaignStatus db cid "draft").campaigns := by
  by_cases hb : isBlank p.email
  · exact ⟨"No email address",
      insertActivity (setCampaignStatus db cid "draft") p.id "email_drafted"
        "Email drafted - no email address on file",
      by simp [outreachSendEmail, hb], rfl⟩
  · rcases hblank with hb2 | hr
    · exact absurd hb2 hb
    · exact ⟨"Email service not configured", setCampaignStatus db cid "draft",
        by simp [outreachSendEmail, hb, hr], rfl⟩

/-- C9: when an Outreach or FollowUp execution reaches its delivery step
(the guards passed and the LLM calls returned) and the prospect has no email
address or `emailService.isReady()` is false, the freshly created campaign
is downgraded to `draft` and the agent returns a normal report with
`sent = false` instead of throwing; and a run that returns normally makes
`processTask` mark its task `completed`, so such a task is neither retried
nor marked failed. -/
theorem missing_email_or_unready_drafts (env : Collab) (now pid : Nat) (db : Db)
    (p : Prospect) (body subj : String)
    (hfp : findProspect db pid = some p)
    (hauto : p.automation_enabled = true)
    (hids : ∀ c ∈ db.campaigns, c.id ≠ db.campaignCounter + 1)
    (hblank : isBlank p.email = true ∨ env.emailReady = false)
    (hsubj : env.llmSubjectLine = .ok subj) :
    (∀ s : FollowUpSequence,
      p.stage = "contacted" → findSequence db pid = some s → s.is_paused = false →
      s.sequence_step < s.max_steps → env.llmFollowUpBody = .ok body →
      ∃ err db2, followupExecute env now pid db =
          .ok (.report (db.campaignCounter + 1) (s.sequence_step + 1) subj false
                (some err), db2)
        ∧ (findCampaign db2 (db.campaignCounter + 1)).map Campaign.status =
            some "draft")
    ∧ (getConfig db "auto_outreach" "true" = "true" →
       (db.campaigns.filter fun c => c.prospect_id == pid) = [] →
       env.llmOutreachBody = .ok body →
       ∀ payload : OutreachPayload, payload.templateId = none →
       ∃ err db2, outreachExecute env now pid payload db =
           .ok (.report (db.campaignCounter + 1) subj false (some err), db2)
         ∧ (findCampaign db2 (db.campaignCounter + 1)).map Campaign.status =
             some "draft")
    ∧ (∀ (reg : Registry) (t : Task) (db3 db4 : Db) (run : AgentRun)
         (pl : Json) (r : Json),
        reg.lookup t.agent_type = some run →
        dispatchPayload t.payload = some pl →
        findTask db3 t.id = some t →
        run t.prospect_id pl (updateTaskStatus now t.id "processing" none none db3)
          = (.ok r, db4) →
        db4.tasks = (updateTaskStatus now t.id "processing" none none db3).tasks →
        (findTask (processTask reg now t db3) t.id).map Task.status =
          some "completed") := by
  refine ⟨?_, ?_, ?_⟩
  · intro s hstage hfs hpause hstep hbody
    have hmax : ¬ s.max_steps ≤ s.sequence_step := by omega
    obtain ⟨err, hsend⟩ := followupSendEmail_draft env p subj body
      (db.campaignCounter + 1) now
      (insertActivity
        { db with
          campaignCounter := db.campaignCounter + 1,
          campaigns := db.campaigns ++
            [{
            id := db.campaignCounter + 1, prospect_id := pid,
            template_id := none, subject := subj, body := body,
            status := "pending", sent_at := none }] }
        pid "agent_action" ("Follow-up Agent generated follow-up #"
          ++ toString (s.sequence_step + 1) ++ ": \"" ++ subj ++ "\"")) hblank
    have hexec : followupExecute env now pid db =
        .ok (.report (db.campaignCounter + 1) (s.sequence_step + 1) subj false
              (some err),
             setCampaignStatus
               (insertActivity
        { db with
          campaignCounter := db.campaignCounter + 1,
          campaigns := db.campaigns ++
            [{
            id := db.campaignCounter + 1, prospect_id := pid,
            template_id := none, subject := subj, body := body,
            status := "pending", sent_at := none }] }
        pid "agent_action" ("Follow-up Agent generated follow-up #"
          ++ toString (s.sequence_step + 1) ++ ": \"" ++ subj ++ "\""))
               (db.campaignCounter + 1) "draft") := by
      simp only [followupExecute, hfp, hauto, hstage, hfs, hpause, hmax, hbody,
        hsubj, insertCampaign, Bool.not_true, reduceIte, ne_eq,
        not_true_eq_false, Bool.false_eq_true, if_false]
      rw [hsend]
      rfl
    refine ⟨err, _, hexec, ?_⟩
    have happ := @findCampaign_appended
      (insertActivity
        { db with
          campaignCounter := db.campaignCounter + 1,
          campaigns := db.campaigns ++
            [{
            id := db.campaignCounter + 1, prospect_id := pid,
            template_id := none, subject := subj, body := body,
            status := "pending", sent_at := none }] }
        pid "agent_action" ("Follow-up Agent generated follow-up #"
          ++ toString (s.sequence_step + 1) ++ ": \"" ++ subj ++ "\""))
      db.campaigns
      {     id := db.campaignCounter + 1, prospect_id := pid,
            template_id := none, subject := subj, body := body,
            status := "pending", sent_at := none }
      rfl hids
    have hset := findCampaign_setStatus "draft" happ
    rw [hset]
    rfl
  · intro hglob hnone hbody payload htid
    have hcamp : ¬ 0 < (db.campaigns.filter fun c => c.prospect_id == pid).length := by
      rw [hnone]; simp
    obtain ⟨err, db2, hsend, hcamps⟩ := outreachSendEmail_draft env p subj body
      (db.campaignCounter + 1) now
      (insertActivity
        { db with
          campaignCounter := db.campaignCounter + 1,
          campaigns := db.campaigns ++
            [{
            id := db.campaignCounter + 1, prospect_id := pid,
            template_id := none, subject := subj, body := body,
            status := "pending", sent_at := none }] }
        pid "agent_action" ("Outreach Agent generated email: \"" ++ subj ++ "\"")) hblank
    have hexec : outreachExecute env now pid payload db =
        .ok (.report (db.campaignCounter + 1) subj false (some err), db2) := by
      simp only [outreachExecute, hfp, hauto, hglob, hcamp, htid, hbody, hsubj,
        outreachFinish, insertCampaign, Bool.not_true, reduceIte, ne_eq,
        not_true_eq_false, Bool.false_eq_true, if_false]
      rw [hsend]
      rfl
    refine ⟨err, db2, hexec, ?_⟩
    have happ := @findCampaign_appended
      (insertActivity
        { db with
          campaignCounter := db.campaignCounter + 1,
          campaigns := db.campaigns ++
            [{
            id := db.campaignCounter + 1, prospect_id := pid,
            template_id := none, subject := subj, body := body,
            status := "pending", sent_at := none }] }
        pid "agent_action" ("Outreach Agent generated email: \"" ++ subj ++ "\""))
      db.campaigns
      {     id := db.campaignCounter + 1, prospect_id := pid,
            template_id := none, subject := subj, body := body,
            status := "pending", sent_at := none }
      rfl hids
    have hset := findCampaign_setStatus "draft" happ
    have hc2 : findCampaign db2 (db.campaignCounter + 1) =
        some {
          id := db.campaignCounter + 1, prospect_id := pid,
          template_id := none, subject := subj, body := body,
          status := "draft", sent_at := none } := by
      rw [findCampaign, hcamps]
      exact hset
    rw [hc2]
    rfl
  · intro reg t db3 db4 run pl r hlook hpl hfind hrun htasks
    have hPT : processTask reg now t db3 =
        updateTaskStatus now t.id "completed" (some r) none db4 := by
      simp [processTask, hlook, hpl, hrun]
    have h1 : db4.tasks.find? (fun u => u.id == t.id) =
        some { t with
          status := "processing",
          result := (none : Option Json).map Json.stringify, error := none,
          completed_at :=
            if ("processing" : String) = "completed"
               ∨ ("processing" : String) = "failed" then some now else none,
          attempts := t.attempts + 1 } := by
      rw [htasks, updateTaskStatus]
      exact find?_map_ite Task.id db3.tasks t.id
        (fun u => { u with
          status := "processing",
          result := (none : Option Json).map Json.stringify, error := none,
          completed_at :=
            if ("processing" : String) = "completed"
               ∨ ("processing" : String) = "failed" then some now else none,
          attempts := u.attempts + 1 })
        (fun u => rfl) t hfind
    rw [hPT, updateTaskStatus, findTask]
    have h2 := find?_map_ite Task.id db4.tasks t.id
      (fun u => { u with
        status := "completed",
        result := (some r).map Json.stringify, error := (none : Option String),
        completed_at :=
          if ("completed" : String) = "completed"
             ∨ ("completed" : String) = "failed" then some now else none,
        attempts := u.attempts + 1 })
      (fun u => rfl) _ h1
    rw [h2]
    rfl

/-- Witness for C9: a concrete FollowUp execution against an unconfigured
email service returns `sent = false` and leaves the campaign in `draft`. -/
theorem missing_email_or_unready_drafts_witness :
    ∃ err db2, followupExecute (sampleCollab false) 0 1
        { emptyDb with prospects := [sampleProspect 1 (some "a@b.c") "contacted" true],
                       sequences := [sampleSequence 1 0 3 false] } =
        .ok (.report 1 1 "Quick question" false (some err), db2)
      ∧ (findCampaign db2 1).map Campaign.status = some "draft" :=
  (missing_email_or_unready_drafts (sampleCollab false) 0 1
    { emptyDb with prospects := [sampleProspect 1 (some "a@b.c") "contacted" true],
                   sequences := [sampleSequence 1 0 3 false] }
    (sampleProspect 1 (some "a@b.c") "contacted" true) "generated follow-up body"
    "Quick question" (by decide) (by decide) (by decide) (Or.inr rfl)
    rfl).1 (sampleSequence 1 0 3 false) (by decide) (by decide) (by decide)
    (by decide) rfl

/-- Witness for C2 (amended): a valid transition (`new → contacted`)
succeeds and an off-table one from `won` fails with the store untouched;
the webhook write applies to a concrete prospect in stage `new`. -/
theorem transitionTo_success_iff_table_witness :
    ((transitionTo 0 (sampleProspect 1 none "new" true) "contacted" none emptyDb).1.success = true)
    ∧ (transitionTo 0 (sampleProspect 1 none "won" true) "contacted" none emptyDb).2 = emptyDb := by
  constructor
  · exact (transitionTo_success_iff_table 0 (sampleProspect 1 none "new" true)
      "contacted" none emptyDb).1.mpr (by decide)
  · exact (transitionTo_success_iff_table 0 (sampleProspect 1 none "won" true)
      "contacted" none emptyDb).2.1 (by decide)

/-! ## Correctness of the JSON printer/parser pair

The chain below establishes that `Json.parse` inverts `Json.stringify`,
claim by claim: characters, string bodies, numerals, then whole values by
induction on the parser fuel. -/

theorem hexVal_hexDigit {n : Nat} (h : n < 16) : hexVal (hexDigit n) = some n := by
  interval_cases n <;> decide

theorem digitVal_digitChar {d : Nat} (h : d < 10) : digitVal (digitChar d) = d := by
  interval_cases d <;> decide

theorem digitChar_isDigit {d : Nat} (h : d < 10) : (digitChar d).isDigit = true := by
  interval_cases d <;> decide

/-- A digit character is not one of the structural characters the value
parser dispatches on. -/
theorem isDigit_not_structural {c : Char} (h : c.isDigit = true) :
    c ≠ 'n' ∧ c ≠ 't' ∧ c ≠ 'f' ∧ c ≠ '"' ∧ c ≠ '[' ∧ c ≠ '{' ∧ c ≠ '-'
    ∧ c ≠ ']' ∧ c ≠ '}' ∧ c ≠ ',' := by
  refine ⟨?_, ?_, ?_, ?_, ?_, ?_, ?_, ?_, ?_, ?_⟩ <;>
    · rintro rfl
      simp [Char.isDigit] at h

/-- Decoding inverts the per-character escaping of `JSON.stringify`. -/
theorem parseStringBody_escape (c : Char) (l : List Char) :
    parseStringBody (escapeChar c ++ l) =
      (parseStringBody l).map fun p => (c :: p.1, p.2) := by
  rw [escapeChar]
  by_cases h1 : c = '"'
  · subst h1
    simp only [reduceIte]
    rw [parseStringBody.eq_def]
    rfl
  by_cases h2 : c = '\\'
  · subst h2
    rw [if_neg h1, if_pos rfl]
    rw [parseStringBody.eq_def]
    rfl
  by_cases h3 : c = '\n'
  · subst h3
    rw [if_neg h1, if_neg h2, if_pos rfl]
    rw [parseStringBody.eq_def]
    rfl
  by_cases h4 : c = '\r'
  · subst h4
    rw [if_neg h1, if_neg h2, if_neg h3, if_pos rfl]
    rw [parseStringBody.eq_def]
    rfl
  by_cases h5 : c = '\t'
  · subst h5
    rw [if_neg h1, if_neg h2, if_neg h3, if_neg h4, if_pos rfl]
    rw [parseStringBody.eq_def]
    rfl
  by_cases h6 : c.toNat = 8
  · have hc : c = Char.ofNat 8 := by rw [← h6, Char.ofNat_toNat]
    subst hc
    rw [if_neg h1, if_neg h2, if_neg h3, if_neg h4, if_neg h5, if_pos h6]
    rw [parseStringBody.eq_def]
    rfl
  by_cases h7 : c.toNat = 12
  · have hc : c = Char.ofNat 12 := by rw [← h7, Char.ofNat_toNat]
    subst hc
    rw [if_neg h1, if_neg h2, if_neg h3, if_neg h4, if_neg h5, if_neg h6,
      if_pos h7]
    rw [parseStringBody.eq_def]
    rfl
  by_cases h8 : c.toNat < 32
  · have hdiv : c.toNat / 16 < 16 := by omega
    have hmod : c.toNat % 16 < 16 := by omega
    rw [if_neg h1, if_neg h2, if_neg h3, if_neg h4, if_neg h5, if_neg h6,
      if_neg h7, if_pos h8]
    rw [parseStringBody.eq_def]
    simp only [List.cons_append, reduceIte, reduceCtorEq]
    rw [hexVal_hexDigit hdiv, hexVal_hexDigit hmod,
      show hexVal (Char.ofNat 48) = some 0 from rfl]
    have harith : ((0 * 16 + 0) * 16 + c.toNat / 16) * 16 + c.toNat % 16
        = c.toNat := by omega
    simp only []
    rw [harith, Char.ofNat_toNat]
    rw [if_neg (by decide : ¬ (('\\' : Char) = '"')), List.nil_append]
  · rw [if_neg h1, if_neg h2, if_neg h3, if_neg h4, if_neg h5, if_neg h6,
      if_neg h7, if_neg h8]
    rw [List.singleton_append, parseStringBody.eq_def]
    simp [h1, h2]

theorem parseStringBody_print (s l : List Char) :
    parseStringBody (escapeList s ++ '"' :: l) = some (s, l) := by
  induction s with
  | nil =>
    rw [escapeList, List.nil_append, parseStringBody.eq_def]
    rfl
  | cons c cs ih =>
    rw [escapeList, List.append_assoc, parseStringBody_escape, ih]
    rfl


/-! ### Numerals -/

/-- With enough fuel, `natDigitsRev` computes the base-10 digits. -/
theorem natDigitsRev_eq : ∀ fuel n : Nat, n ≤ fuel → natDigitsRev fuel n = Nat.digits 10 n := by
  intro fuel
  induction fuel with
  | zero =>
    intro n h
    interval_cases n
    simp [natDigitsRev]
  | succ f ih =>
    intro n h
    rw [natDigitsRev]
    by_cases hn : n = 0
    · subst hn; simp
    · have hlt : n / 10 < n := Nat.div_lt_self (Nat.pos_of_ne_zero hn) (by norm_num)
      rw [if_neg hn, ih (n / 10) (by omega),
        Nat.digits_def' (by norm_num : (1 : Nat) < 10) (Nat.pos_of_ne_zero hn)]

/-- Every character of a printed natural numeral is a decimal digit. -/
theorem natChars_digit (n : Nat) : ∀ c ∈ natChars n, c.isDigit = true := by
  intro c hc
  rw [natChars] at hc
  by_cases hn : n = 0
  · rw [if_pos hn] at hc
    simp at hc
    subst hc
    decide
  · rw [if_neg hn, natDigitsRev_eq n n le_rfl] at hc
    rw [List.mem_reverse] at hc
    obtain ⟨d, hd, rfl⟩ := List.mem_map.mp hc
    exact digitChar_isDigit (Nat.digits_lt_base (by norm_num) hd)

/-- A printed natural numeral is nonempty. -/
theorem natChars_ne_nil (n : Nat) : natChars n ≠ [] := by
  rw [natChars]
  by_cases hn : n = 0
  · rw [if_pos hn]; simp
  · rw [if_neg hn, natDigitsRev_eq n n le_rfl]
    simp [Nat.digits_ne_nil_iff_ne_zero, hn]

/-- Folding the decimal-accumulation step over a reversed digit list recovers
the positional value. -/
theorem foldl_digits : ∀ ds : List Nat, (∀ d ∈ ds, d < 10) → ∀ a : Nat,
    ((ds.map digitChar).reverse).foldl (fun x c => x * 10 + digitVal c) a
      = a * 10 ^ ds.length + Nat.ofDigits 10 ds := by
  intro ds
  induction ds with
  | nil => intro _ a; simp [Nat.ofDigits]
  | cons d ds ih =>
    intro hds a
    have hd : d < 10 := hds d (by simp)
    have hds2 : ∀ x ∈ ds, x < 10 := fun x hx => hds x (by simp [hx])
    rw [List.map_cons, List.reverse_cons, List.foldl_append, ih hds2 a]
    simp only [List.foldl_cons, List.foldl_nil]
    rw [digitVal_digitChar hd, Nat.ofDigits_cons, List.length_cons, pow_succ]
    ring

/-- The parser fold evaluates a printed natural numeral to its value. -/
theorem natChars_foldl (n : Nat) :
    (natChars n).foldl (fun x c => x * 10 + digitVal c) 0 = n := by
  rw [natChars]
  by_cases hn : n = 0
  · rw [if_pos hn]; subst hn; decide
  · rw [if_neg hn, natDigitsRev_eq n n le_rfl,
      foldl_digits _ (fun d hd => Nat.digits_lt_base (by norm_num) hd) 0]
    simp [Nat.ofDigits_digits]

/-- `takeWhile` passes over a prefix all of whose elements satisfy the
predicate. -/
theorem takeWhile_append_all {α : Type} {p : α → Bool} :
    ∀ l₁ l₂ : List α, (∀ a ∈ l₁, p a = true) →
      (l₁ ++ l₂).takeWhile p = l₁ ++ l₂.takeWhile p := by
  intro l₁
  induction l₁ with
  | nil => intro l₂ _; simp
  | cons c cs ih =>
    intro l₂ h
    rw [List.cons_append, List.takeWhile_cons, if_pos (h c (by simp)),
      ih l₂ (fun a ha => h a (by simp [ha])), List.cons_append]

/-- `dropWhile` drops a prefix all of whose elements satisfy the predicate. -/
theorem dropWhile_append_all {α : Type} {p : α → Bool} :
    ∀ l₁ l₂ : List α, (∀ a ∈ l₁, p a = true) →
      (l₁ ++ l₂).dropWhile p = l₂.dropWhile p := by
  intro l₁
  induction l₁ with
  | nil => intro l₂ _; simp
  | cons c cs ih =>
    intro l₂ h
    rw [List.cons_append, List.dropWhile_cons, if_pos (h c (by simp)),
      ih l₂ (fun a ha => h a (by simp [ha]))]

/-- `parseNat` consumes exactly a printed natural numeral when the remainder
starts with a non-digit. -/
theorem parseNat_natChars (n : Nat) (l : List Char) (hl : numDelim l = true) :
    parseNat (natChars n ++ l) = some (n, l) := by
  have hltake : l.takeWhile Char.isDigit = [] := by
    cases l with
    | nil => rfl
    | cons c cs =>
      rw [numDelim] at hl
      simp at hl
      simp [List.takeWhile_cons, hl]
  have hldrop : l.dropWhile Char.isDigit = l := by
    cases l with
    | nil => rfl
    | cons c cs =>
      rw [numDelim] at hl
      simp at hl
      simp [List.dropWhile_cons, hl]
  rw [parseNat]
  simp only [takeWhile_append_all (natChars n) l (natChars_digit n),
    dropWhile_append_all (natChars n) l (natChars_digit n),
    hltake, hldrop, List.append_nil]
  rw [if_neg (by simp [List.isEmpty_iff, natChars_ne_nil n])]
  rw [natChars_foldl]

/-- `parseNumber` consumes exactly a printed integer numeral when the
remainder starts with a non-digit. -/
theorem parseNumber_intChars (n : Int) (l : List Char) (hl : numDelim l = true) :
    parseNumber (intChars n ++ l) = some (Json.num n, l) := by
  rw [intChars]
  by_cases hn : n < 0
  · rw [if_pos hn, List.cons_append, parseNumber.eq_def]
    simp only [reduceIte]
    rw [parseNat_natChars _ _ hl]
    simp only [Option.map_some']
    have : -(n.natAbs : Int) = n := by omega
    rw [this]
  · rw [if_neg hn]
    obtain ⟨c, cs, hcs⟩ : ∃ c cs, natChars n.toNat = c :: cs := by
      cases h : natChars n.toNat with
      | nil => exact absurd h (natChars_ne_nil _)
      | cons c cs => exact ⟨c, cs, rfl⟩
    have hcd : c.isDigit = true := natChars_digit n.toNat c (by rw [hcs]; simp)
    have hcne : c ≠ '-' := by
      intro h
      rw [h] at hcd
      exact absurd hcd (by decide)
    rw [hcs, List.cons_append, parseNumber.eq_def]
    show (if c = '-' then Option.map (fun p => (Json.num (-(p.1 : Int)), p.2)) (parseNat (cs ++ l))
      else Option.map (fun p => (Json.num ((p.1 : Nat) : Int), p.2)) (parseNat (c :: (cs ++ l)))) = some (Json.num n, l)
    rw [if_neg hcne, ← List.cons_append, ← hcs, parseNat_natChars _ _ hl]
    simp only [Option.map_some']
    rw [Int.toNat_of_nonneg (le_of_not_lt hn)]


/-! ### Sizes and head characters of printed values -/

mutual

/-- The fuel bound for one value is covered by its printed length. -/
theorem jsize_le : ∀ j : Json, jsize j ≤ (printVal j).length
  | .null => by simp [jsize, printVal]
  | .bool true => by simp [jsize, printVal]
  | .bool false => by simp [jsize, printVal]
  | .num n => by
    have h : intChars n ≠ [] := by
      rw [intChars]
      by_cases hn : n < 0
      · rw [if_pos hn]; simp
      · rw [if_neg hn]; exact natChars_ne_nil _
    have : 0 < (intChars n).length := List.length_pos.mpr h
    simp [jsize, printVal]
    omega
  | .str s => by simp [jsize, printVal]
  | .arr xs => by
    have h := esize_le xs
    simp [jsize, printVal]
    omega
  | .obj fs => by
    have h := fsize_le fs
    simp [jsize, printVal]
    omega

/-- The fuel bound for an element list is covered by its printed length. -/
theorem esize_le : ∀ xs : List Json, esize xs ≤ 1 + (printElems xs).length
  | [] => by simp [esize, printElems]
  | [x] => by
    have h := jsize_le x
    simp [esize, printElems]
    omega
  | x :: y :: ys => by
    have h1 := jsize_le x
    have h2 := esize_le (y :: ys)
    simp [esize, printElems] at h2 ⊢
    omega

/-- The fuel bound for a member list is covered by its printed length. -/
theorem fsize_le : ∀ fs : List (String × Json), fsize fs ≤ 1 + (printFields fs).length
  | [] => by simp [fsize, printFields]
  | [(k, v)] => by
    have h := jsize_le v
    simp [fsize, printFields]
    omega
  | (k, v) :: g :: gs => by
    have h1 := jsize_le v
    have h2 := fsize_le (g :: gs)
    simp [fsize, printFields] at h2 ⊢
    omega

end

/-- A printed value is nonempty and never starts with a closing bracket, a
closing brace or a comma. -/
theorem printVal_cons : ∀ j : Json, ∃ c cs, printVal j = c :: cs
    ∧ c ≠ ']' ∧ c ≠ '\x7d' ∧ c ≠ ',' := by
  intro j
  cases j with
  | null => refine ⟨'n', _, rfl, ?_, ?_, ?_⟩ <;> decide
  | bool b =>
    cases b with
    | true => refine ⟨'t', _, rfl, ?_, ?_, ?_⟩ <;> decide
    | false => refine ⟨'f', _, rfl, ?_, ?_, ?_⟩ <;> decide
  | num n =>
    rw [printVal, intChars]
    by_cases hn : n < 0
    · rw [if_pos hn]
      exact ⟨'-', _, rfl, by decide, by decide, by decide⟩
    · rw [if_neg hn]
      obtain ⟨c, cs, hcs⟩ : ∃ c cs, natChars n.toNat = c :: cs := by
        cases h : natChars n.toNat with
        | nil => exact absurd h (natChars_ne_nil _)
        | cons c cs => exact ⟨c, cs, rfl⟩
      have hcd : c.isDigit = true := natChars_digit n.toNat c (by rw [hcs]; simp)
      obtain ⟨-, -, -, -, -, -, -, h1, h2, h3⟩ := isDigit_not_structural hcd
      exact ⟨c, cs, hcs, h1, h2, h3⟩
  | str s => refine ⟨'"', _, rfl, ?_, ?_, ?_⟩ <;> decide
  | arr xs => refine ⟨'[', _, rfl, ?_, ?_, ?_⟩ <;> decide
  | obj fs => refine ⟨'\x7b', _, rfl, ?_, ?_, ?_⟩ <;> decide


theorem intChars_ne_nil (n : Int) : intChars n ≠ [] := by
  rw [intChars]
  by_cases hn : n < 0
  · rw [if_pos hn]; simp
  · rw [if_neg hn]; exact natChars_ne_nil _

/-- A printed integer numeral starts with a minus sign or a digit. -/
theorem intChars_head (n : Int) (c : Char) (cs : List Char)
    (h : intChars n = c :: cs) : c = '-' ∨ c.isDigit = true := by
  rw [intChars] at h
  by_cases hn : n < 0
  · rw [if_pos hn] at h
    exact Or.inl (List.cons.injEq .. ▸ h).1.symm
  · rw [if_neg hn] at h
    exact Or.inr (natChars_digit n.toNat c (by rw [h]; simp))

/-- A printed element list starts with a character other than `]`. -/
theorem printElems_cons (x : Json) (xs : List Json) :
    ∃ c cs, printElems (x :: xs) = c :: cs ∧ c ≠ ']' := by
  obtain ⟨c, cs0, hpv, hrb, -, -⟩ := printVal_cons x
  cases xs with
  | nil => exact ⟨c, cs0, by rw [printElems, hpv], hrb⟩
  | cons y ys =>
    exact ⟨c, cs0 ++ ',' :: printElems (y :: ys),
      by rw [printElems, hpv, List.cons_append], hrb⟩

/-- A printed member list starts with the opening quote of its first key. -/
theorem printFields_cons (k : String) (v : Json) (fs : List (String × Json)) :
    ∃ cs, printFields ((k, v) :: fs) = '"' :: cs := by
  cases fs with
  | nil =>
    exact ⟨escapeList k.data ++ ['"', ':'] ++ printVal v,
      by rw [printFields, printKey]; simp⟩
  | cons g gs =>
    exact ⟨escapeList k.data ++ ['"', ':'] ++ printVal v
        ++ ',' :: printFields (g :: gs),
      by rw [printFields, printKey]; simp⟩

theorem jsize_pos (j : Json) : 1 ≤ jsize j := by
  cases j <;> simp [jsize]

/-- The parser inverts the printer: with enough fuel, a printed value followed
by a non-digit remainder parses back to exactly that value, and likewise for
printed element and member lists followed by their closing bracket. -/
theorem parse_print : ∀ fuel : Nat,
    (∀ (j : Json) (l : List Char), jsize j ≤ fuel → numDelim l = true →
      parseVal fuel (printVal j ++ l) = some (j, l))
    ∧ (∀ (xs : List Json) (l : List Char), xs ≠ [] → esize xs ≤ fuel →
      numDelim l = true →
      parseElems fuel (printElems xs ++ ']' :: l) = some (Json.arr xs, l))
    ∧ (∀ (fs : List (String × Json)) (l : List Char), fs ≠ [] → fsize fs ≤ fuel →
      numDelim l = true →
      parseFields fuel (printFields fs ++ '\x7d' :: l) = some (Json.obj fs, l)) := by
  intro fuel
  induction fuel with
  | zero =>
    refine ⟨?_, ?_, ?_⟩
    · intro j l hsz _
      exact absurd hsz (by have := jsize_pos j; omega)
    · intro xs l hne hsz _
      cases xs with
      | nil => exact absurd rfl hne
      | cons x xs => exact absurd hsz (by rw [esize]; omega)
    · intro fs l hne hsz _
      cases fs with
      | nil => exact absurd rfl hne
      | cons g gs => exact absurd hsz (by rw [fsize]; omega)
  | succ f ih =>
    obtain ⟨ihP, ihQ, ihR⟩ := ih
    refine ⟨?_, ?_, ?_⟩
    · intro j l hsz hnd
      cases j with
      | null =>
        rw [parseVal.eq_def]
        rfl
      | bool b =>
        cases b with
        | true =>
          rw [parseVal.eq_def]
          rfl
        | false =>
          rw [parseVal.eq_def]
          rfl
      | num n =>
        obtain ⟨c, cs, hcs⟩ : ∃ c cs, intChars n = c :: cs := by
          cases h : intChars n with
          | nil => exact absurd h (intChars_ne_nil _)
          | cons c cs => exact ⟨c, cs, rfl⟩
        have hstruct : c ≠ 'n' ∧ c ≠ 't' ∧ c ≠ 'f' ∧ c ≠ '"' ∧ c ≠ '['
            ∧ c ≠ '\x7b' := by
          rcases intChars_head n c cs hcs with h | h
          · subst h
            exact ⟨by decide, by decide, by decide, by decide, by decide, by decide⟩
          · obtain ⟨h1, h2, h3, h4, h5, h6, -, -, -, -⟩ := isDigit_not_structural h
            exact ⟨h1, h2, h3, h4, h5, h6⟩
        obtain ⟨h1, h2, h3, h4, h5, h6⟩ := hstruct
        rw [printVal, hcs, List.cons_append, parseVal.eq_def]
        simp only [h1, h2, h3, h4, h5, h6, reduceIte, if_false]
        rw [← List.cons_append, ← hcs, parseNumber_intChars n l hnd]
      | str s =>
        have hlist : printVal (Json.str s) ++ l
            = '"' :: (escapeList s.data ++ ('"' :: l)) := by
          simp [printVal]
        rw [hlist, parseVal.eq_def]
        show (parseStringBody (escapeList s.data ++ '"' :: l)).map
            (fun p => (Json.str ⟨p.1⟩, p.2)) = some (Json.str s, l)
        rw [parseStringBody_print]
        rfl
      | arr xs =>
        cases xs with
        | nil =>
          rw [show printVal (Json.arr []) ++ l = '[' :: ']' :: l from rfl,
            parseVal.eq_def]
          rfl
        | cons x xs =>
          obtain ⟨c, cs, hpe, hrb⟩ := printElems_cons x xs
          have hlist : printVal (Json.arr (x :: xs)) ++ l
              = '[' :: c :: (cs ++ ']' :: l) := by
            rw [printVal, hpe]
            simp
          rw [hlist, parseVal.eq_def]
          simp only [reduceIte, hrb, if_false,
            (by decide : ('[' : Char) ≠ 'n'), (by decide : ('[' : Char) ≠ 't'),
            (by decide : ('[' : Char) ≠ 'f'), (by decide : ('[' : Char) ≠ '"')]
          rw [← List.cons_append, ← hpe]
          refine ihQ (x :: xs) l (by simp) ?_ hnd
          rw [jsize] at hsz
          omega
      | obj fs =>
        cases fs with
        | nil =>
          rw [show printVal (Json.obj []) ++ l = '\x7b' :: '\x7d' :: l from rfl,
            parseVal.eq_def]
          rfl
        | cons kv fs =>
          obtain ⟨k, v⟩ := kv
          obtain ⟨cs, hpf⟩ := printFields_cons k v fs
          have hlist : printVal (Json.obj ((k, v) :: fs)) ++ l
              = '\x7b' :: '"' :: (cs ++ '\x7d' :: l) := by
            rw [printVal, hpf]
            simp
          rw [hlist, parseVal.eq_def]
          simp only [reduceIte,
            (by decide : ('\x7b' : Char) ≠ 'n'), (by decide : ('\x7b' : Char) ≠ 't'),
            (by decide : ('\x7b' : Char) ≠ 'f'), (by decide : ('\x7b' : Char) ≠ '"'),
            (by decide : ('"' : Char) ≠ '\x7d'), if_false]
          rw [← List.cons_append, ← hpf]
          refine ihR ((k, v) :: fs) l (by simp) ?_ hnd
          rw [jsize] at hsz
          omega
    · intro xs l hne hsz hnd
      cases xs with
      | nil => exact absurd rfl hne
      | cons x xs =>
        cases xs with
        | nil =>
          rw [printElems]
          rw [parseElems.eq_def]
          simp only []
          rw [ihP x (']' :: l) (by rw [esize, esize] at hsz; omega) rfl]
          rfl
        | cons y ys =>
          rw [printElems]
          rw [show (printVal x ++ ',' :: printElems (y :: ys)) ++ ']' :: l
              = printVal x ++ (',' :: (printElems (y :: ys) ++ ']' :: l)) by simp]
          rw [parseElems.eq_def]
          simp only []
          rw [ihP x (',' :: (printElems (y :: ys) ++ ']' :: l))
            (by rw [esize] at hsz; omega) rfl]
          rw [show (Json.arr (x :: y :: ys)) = Json.arr (x :: (y :: ys)) from rfl]
          simp only [reduceIte]
          rw [ihQ (y :: ys) l (by simp) (by rw [esize] at hsz; omega) hnd]
    · intro fs l hne hsz hnd
      cases fs with
      | nil => exact absurd rfl hne
      | cons kv gs =>
        obtain ⟨k, v⟩ := kv
        cases gs with
        | nil =>
          have hlist : printFields [(k, v)] ++ '\x7d' :: l
              = '"' :: (escapeList k.data ++ '"' :: (':' :: (printVal v ++ '\x7d' :: l))) := by
            rw [printFields, printKey]
            simp
          rw [hlist, parseFields.eq_def]
          simp only []
          simp only [if_true]
          rw [parseStringBody_print k.data (':' :: (printVal v ++ '\x7d' :: l))]
          simp only [if_true]
          rw [ihP v ('\x7d' :: l) (by simp [fsize] at hsz; omega) rfl]
          rfl
        | cons g gs2 =>
          have hlist : printFields ((k, v) :: g :: gs2) ++ '\x7d' :: l
              = '"' :: (escapeList k.data ++ '"' :: (':' :: (printVal v
                  ++ ',' :: (printFields (g :: gs2) ++ '\x7d' :: l)))) := by
            rw [printFields, printKey]
            simp
          rw [hlist, parseFields.eq_def]
          simp only []
          simp only [if_true]
          rw [parseStringBody_print k.data
            (':' :: (printVal v ++ ',' :: (printFields (g :: gs2) ++ '\x7d' :: l)))]
          simp only [if_true]
          rw [ihP v (',' :: (printFields (g :: gs2) ++ '\x7d' :: l))
            (by simp [fsize] at hsz; omega) rfl]
          simp only [reduceIte]
          rw [ihR (g :: gs2) l (by simp) (by simp [fsize] at hsz ⊢; omega) hnd]

/-- `JSON.parse` inverts `JSON.stringify`. -/
theorem parse_stringify (j : Json) : Json.parse (Json.stringify j) = some j := by
  have h := (parse_print ((printVal j).length + 1)).1 j []
    (by have := jsize_le j; omega) rfl
  rw [List.append_nil] at h
  rw [Json.parse.eq_def]
  rw [show (Json.stringify j).data = printVal j from rfl]
  rw [h]


/-- C10: a payload queued by `queueTask` is stored as its `JSON.stringify`
text, and `processTask`'s dispatch-time `JSON.parse` of that stored text
recovers a structurally equal payload; a null or empty stored payload is
delivered as the empty object. -/
theorem queueTask_payload_roundtrip (now : Nat) (atype : String) (pid : Nat)
    (sched : Option Nat) (db : Db) (p : Json) (hwf : wfJson p = true) :
    ∃ t : Task,
      (queueTask now atype pid p sched db).2.tasks = db.tasks ++ [t]
      ∧ t.payload = some (Json.stringify p)
      ∧ dispatchPayload t.payload = some p
      ∧ dispatchPayload none = some (Json.obj [])
      ∧ dispatchPayload (some "") = some (Json.obj []) := by
  have hne : Json.stringify p ≠ "" := by
    intro h
    obtain ⟨c, cs, hpv, -, -, -⟩ := printVal_cons p
    have hd : (Json.stringify p).data = ("" : String).data := by rw [h]
    rw [show (Json.stringify p).data = printVal p from rfl, hpv] at hd
    simp at hd
  refine ⟨_, rfl, rfl, ?_, rfl, rfl⟩
  show (if Json.stringify p = "" then some (Json.obj [])
    else Json.parse (Json.stringify p)) = some p
  rw [if_neg hne, parse_stringify]

/-- C10 witness: the round trip evaluated on a concrete classifier payload. -/
theorem queueTask_payload_roundtrip_witness :
    wfJson samplePayload = true
    ∧ (∃ t : Task,
        (queueTask 3 "response_classifier" 7 samplePayload none emptyDb).2.tasks
          = emptyDb.tasks ++ [t]
        ∧ t.payload = some (Json.stringify samplePayload)
        ∧ dispatchPayload t.payload = some samplePayload
        ∧ dispatchPayload none = some (Json.obj [])
        ∧ dispatchPayload (some "") = some (Json.obj [])) :=
  ⟨rfl, queueTask_payload_roundtrip 3 "response_classifier" 7 none emptyDb
    samplePayload rfl⟩

end CloudHack
